import Mathlib

/-!
Role-based access control of the task manager.

A shallow embedding of the back end of the MERN/Firebase task manager:

* `models/User.js`: the user document, its schema validators and the
  `permissions` virtual with `hasPermission`;
* `middleware/auth.js`: `authenticateUser`, `authorize`, `requirePermission`;
* `controllers/taskController.js`: the list filter and the pagination block of
  `getTasks`, and `createTask`, `getTaskById`, `updateTask`, `deleteTask`,
  `getTaskStats`;
* `controllers/authController.js`: `updateProfile`, `updateUserRole`,
  `toggleUserStatus`, `deleteUser`;
* `frontend/src/pages/Tasks.js`: `canEditTask`, `canDeleteTask`.

The document store is a pair of lists (users, tasks) with two fault flags: a
store operation throws when its flag is set, which is how the `try`/`catch`
blocks of the handlers are reached.  The identity verifier, the clock and the
method `String.prototype.toLowerCase` of the engine are explicit arguments.
Strings are compared code point by code point; their `length` is counted in
UTF-16 code units.
-/

namespace TaskManager

/-! JavaScript helpers -/

/-- Truthiness of an optional string: `undefined` and `''` are falsy. -/
def truthy : Option String → Bool
  | none => false
  | some s => s != ""

/-- The method `String.prototype.startsWith`. -/
def startsWith (s pre : String) : Bool :=
  pre.data.isPrefixOf s.data

/-- The method `String.prototype.substring` with a start index only. -/
def substring (s : String) (n : Nat) : String :=
  ⟨s.data.drop n⟩

/-- The code points `String.prototype.trim` strips: the white space and the
line terminators of ECMAScript (tab, line feed, vertical tab, form feed,
carriage return, space, no-break space, the space separators, line and
paragraph separator, the byte order mark). -/
def isWhiteSpace (c : Char) : Bool :=
  c.toNat == 0x09 || c.toNat == 0x0A || c.toNat == 0x0B || c.toNat == 0x0C ||
  c.toNat == 0x0D || c.toNat == 0x20 || c.toNat == 0xA0 || c.toNat == 0x1680 ||
  (decide (0x2000 ≤ c.toNat) && decide (c.toNat ≤ 0x200A)) ||
  c.toNat == 0x2028 || c.toNat == 0x2029 || c.toNat == 0x202F || c.toNat == 0x205F ||
  c.toNat == 0x3000 || c.toNat == 0xFEFF

/-- The method `String.prototype.trim`, as the schema option `trim: true` applies it. -/
def trim (s : String) : String :=
  ⟨((s.data.dropWhile isWhiteSpace).reverse.dropWhile isWhiteSpace).reverse⟩

/-- The property `length` of a JavaScript string: the number of its UTF-16
code units, two for a code point beyond the basic plane. -/
def utf16Length (s : String) : Nat :=
  (s.data.map (fun c => if c.toNat < 0x10000 then 1 else 2)).sum

/-- A lower-casing of the ASCII letters.  The method
`String.prototype.toLowerCase` itself, which the schema option
`lowercase: true` applies, is an argument `toLowerCase` of the functions that
use it; this one stands in for it in the sample runs, whose strings are ASCII,
where the two agree. -/
def asciiLowerCase (s : String) : String :=
  ⟨s.data.map Char.toLower⟩

/-- The expression `s.split('@')[0]`: the part of `s` before the first `@`
(all of `s` when it has none). -/
def splitAtSign0 (s : String) : String :=
  ⟨s.data.takeWhile (fun c => c != '@')⟩

/-! Data model -/

/-- The `profile` sub-document of a user. -/
structure Profile where
  avatar : Option String
  department : Option String
  phoneNumber : Option String
deriving DecidableEq, Repr

/-- A user document of `models/User.js`.  `lastLogin` is a time; `createdAt`
and `updatedAt` are the two times the schema option `timestamps: true` keeps. -/
structure User where
  firebaseUid : String
  email : String
  displayName : String
  role : String
  isActive : Bool
  lastLogin : Nat
  profile : Profile
  createdAt : Nat
  updatedAt : Nat
deriving DecidableEq, Repr

/-- Modelled from the spec: the task document of `models/Task.js`, which is not
among the sources.  The fields are those the controller reads and writes and
section 3 of the specification lists; `id` is the document's `_id`. -/
structure Task where
  id : String
  title : String
  description : String
  status : String
  priority : String
  dueDate : Option Nat
  createdBy : String
  assignedTo : String
  tags : List String
  isArchived : Bool
deriving DecidableEq, Repr

/-- The document store: the two collections, and whether a read or a write
issued against it throws. -/
structure Db where
  users : List User
  tasks : List Task
  readFails : Bool
  writeFails : Bool
deriving DecidableEq, Repr

/-- What a handler sends: `res.status(status).json(body)`, the body given by
its optional keys (`res.json` alone sends status 200). -/
structure Response where
  status : Nat
  message : Option String
  task : Option Task
  user : Option User
  error : Option String
deriving DecidableEq, Repr

/-- The response `res.status(status).json({ message })`. -/
def Response.msg (status : Nat) (m : String) : Response :=
  { status := status, message := some m, task := none, user := none, error := none }

/-- The response `res.status(500).json({ message, error: error.message })`. -/
def Response.internal (m e : String) : Response :=
  { status := 500, message := some m, task := none, user := none, error := some e }

/-! models/User.js -/

/-- The `enum` of the `role` path. -/
def roleEnum : List String := ["user", "manager", "admin"]

/-- The validators of the user schema, as `save()` runs them on a document:
the three required strings are non-empty, the `length` of the display name is
at most 50, the role is in the enum. -/
def User.validate (u : User) : Bool :=
  u.firebaseUid != "" && u.email != "" && u.displayName != "" &&
  decide (utf16Length u.displayName ≤ 50) && roleEnum.contains u.role

/-- The value of `rolePermissions[key]` or of the whole getter: an array of
permission strings, or a value that is not an array. -/
inductive PermValue where
  | array (perms : List String)
  | inherited (name : String)
deriving DecidableEq, Repr

/-- The property names every plain object inherits from `Object.prototype`;
each of them holds a function or an object, so a truthy value. -/
def objectPrototypeKeys : List String :=
  ["constructor", "__proto__", "hasOwnProperty", "isPrototypeOf",
   "propertyIsEnumerable", "toLocaleString", "toString", "valueOf",
   "__defineGetter__", "__defineSetter__", "__lookupGetter__", "__lookupSetter__"]

/-- The property read `rolePermissions[key]` on the object literal of the
getter: its own three keys first, then the prototype chain, else `undefined`. -/
def rolePermissions (key : String) : Option PermValue :=
  if key == "user" then some (.array ["read:own-tasks", "create:tasks"])
  else if key == "manager" then
    some (.array ["read:all-tasks", "create:tasks", "update:all-tasks"])
  else if key == "admin" then
    some (.array ["read:all-tasks", "create:tasks", "update:all-tasks",
                  "delete:all-tasks", "manage:users"])
  else if objectPrototypeKeys.contains key then some (.inherited key)
  else none

/-- The virtual `permissions`: `rolePermissions[this.role] || []`. -/
def User.permissions (u : User) : PermValue :=
  match rolePermissions u.role with
  | some v => v
  | none => .array []

/-- The method `hasPermission`: `this.permissions.includes(permission)`.  A
value that is not an array has no `includes`, and the call throws a
`TypeError`. -/
def User.hasPermission (u : User) (permission : String) : Except String Bool :=
  match u.permissions with
  | .array perms => .ok (perms.contains permission)
  | .inherited _ => .error "TypeError: this.permissions.includes is not a function"

/-! Store operations -/

/-- The query `User.findOne({ firebaseUid: uid })`. -/
def User.findOne (db : Db) (uid : String) : Except String (Option User) :=
  if db.readFails then .error "user store read failed"
  else .ok (db.users.find? (fun u => u.firebaseUid == uid))

/-- The call `user.save()` on a document read from the store, at the time
`now`: the schema validators run on the whole document; a document that is as
stored has no modified path and nothing is written; otherwise `updatedAt` is
set to the clock and the stored record of that identity is replaced.  The
document as saved is returned with the store. -/
def User.save (now : Nat) (db : Db) (u : User) : Except String (User × Db) :=
  if !u.validate then .error "User validation failed"
  else if db.users.find? (fun v => v.firebaseUid == u.firebaseUid) == some u then .ok (u, db)
  else if db.writeFails then .error "user store write failed"
  else
    let u1 := { u with updatedAt := now }
    .ok (u1, { db with
      users := db.users.map (fun v => if v.firebaseUid == u.firebaseUid then u1 else v) })

/-- The call `user.save()` on a document made by `new User(...)`: validators,
then the unique indexes on `firebaseUid` and `email`, then the insert. -/
def User.insert (db : Db) (u : User) : Except String Db :=
  if !u.validate then .error "User validation failed"
  else if db.writeFails then .error "user store write failed"
  else if db.users.any (fun v => v.firebaseUid == u.firebaseUid || v.email == u.email) then
    .error "E11000 duplicate key error"
  else .ok { db with users := db.users ++ [u] }

/-- The call `User.findOneAndUpdate({ firebaseUid: uid }, { role }, { new: true,
runValidators: true })` at the time `now`: the enum validator runs on the new
role, then the record of that identity gets it, and `updatedAt` the clock; the
updated record is returned. -/
def User.findOneAndUpdateRole (now : Nat) (db : Db) (uid role : String) :
    Except String (Option User × Db) :=
  if db.writeFails then .error "user store write failed"
  else if !roleEnum.contains role then .error "User validation failed"
  else match db.users.find? (fun u => u.firebaseUid == uid) with
    | none => .ok (none, db)
    | some u =>
      let u1 := { u with role := role, updatedAt := now }
      .ok (some u1, { db with
        users := db.users.map (fun v => if v.firebaseUid == uid then u1 else v) })

/-- The call `User.findOneAndDelete({ firebaseUid: uid })`; the identity is a
unique key, so the records of that identity are the one record found. -/
def User.findOneAndDelete (db : Db) (uid : String) : Except String (Option User × Db) :=
  if db.writeFails then .error "user store write failed"
  else match db.users.find? (fun u => u.firebaseUid == uid) with
    | none => .ok (none, db)
    | some u => .ok (some u, { db with
        users := db.users.filter (fun v => v.firebaseUid != uid) })

/-- The query `Task.findById(id)`, for an `id` that is a well-formed object id. -/
def Task.findById (db : Db) (id : String) : Except String (Option Task) :=
  if db.readFails then .error "task store read failed"
  else .ok (db.tasks.find? (fun t => t.id == id))

/-- Modelled from the spec: the validators of the task schema of
`models/Task.js`, which is not among the sources: title and description are
required and non-empty, status and priority are one of their three values. -/
def Task.validate (t : Task) : Bool :=
  t.title != "" && t.description != "" &&
  ["pending", "in-progress", "completed"].contains t.status &&
  ["low", "medium", "high"].contains t.priority

/-- The call `task.save()` on a document read from the store. -/
def Task.save (db : Db) (t : Task) : Except String Db :=
  if !t.validate then .error "Task validation failed"
  else if db.writeFails then .error "task store write failed"
  else .ok { db with tasks := db.tasks.map (fun s => if s.id == t.id then t else s) }

/-- The call `Task.findByIdAndDelete(id)`; `_id` is the primary key, so the
documents of that id are the one document found. -/
def Task.findByIdAndDelete (db : Db) (id : String) : Except String Db :=
  if db.writeFails then .error "task store write failed"
  else .ok { db with tasks := db.tasks.filter (fun t => t.id != id) }

/-! controllers/taskController.js -/

/-- The query string of `GET /tasks`, as `req.query` holds it. -/
structure TaskQuery where
  status : Option String
  priority : Option String
  assignedTo : Option String
  page : Option String
  limit : Option String
  sortBy : Option String
  sortOrder : Option String
  search : Option String
deriving DecidableEq, Repr

/-- One clause of a `$or` array that `getTasks` and `getTaskStats` write. -/
inductive Clause where
  | assignedTo (uid : String)
  | createdBy (uid : String)
  | titleRegex (pattern : String)
  | descriptionRegex (pattern : String)
  | tagsInRegex (pattern : String)
deriving DecidableEq, Repr

/-- The filter object `getTasks` hands to `Task.find` and `Task.countDocuments`:
an absent key puts no condition. -/
structure Filter where
  isArchived : Bool
  or : Option (List Clause)
  status : Option String
  priority : Option String
  assignedTo : Option String
deriving DecidableEq, Repr

/-- Whether a task satisfies a clause; `rx pattern s` is the store's
case-insensitive regular expression match of `pattern` in `s`. -/
def Clause.holds (rx : String → String → Bool) (t : Task) : Clause → Bool
  | .assignedTo uid => t.assignedTo == uid
  | .createdBy uid => t.createdBy == uid
  | .titleRegex pattern => rx pattern t.title
  | .descriptionRegex pattern => rx pattern t.description
  | .tagsInRegex pattern => t.tags.any (rx pattern)

/-- Whether the store selects a task for a filter: every key present must
hold, and `$or` holds when one of its clauses does. -/
def Filter.selects (rx : String → String → Bool) (f : Filter) (t : Task) : Bool :=
  t.isArchived == f.isArchived &&
  (match f.or with
   | none => true
   | some clauses => clauses.any (Clause.holds rx t)) &&
  (match f.status with
   | none => true
   | some v => t.status == v) &&
  (match f.priority with
   | none => true
   | some v => t.priority == v) &&
  (match f.assignedTo with
   | none => true
   | some v => t.assignedTo == v)

/-- The `filter` that `getTasks` builds from the bound user and the query,
assignment by assignment. -/
def getTasksFilter (user : User) (query : TaskQuery) : Filter :=
  let filter : Filter :=
    { isArchived := false, or := none, status := none, priority := none, assignedTo := none }
  let filter :=
    if user.role == "user" then
      { filter with or := some [.assignedTo user.firebaseUid, .createdBy user.firebaseUid] }
    else filter
  let filter := if truthy query.status then { filter with status := query.status } else filter
  let filter :=
    if truthy query.priority then { filter with priority := query.priority } else filter
  let filter :=
    if truthy query.assignedTo then { filter with assignedTo := query.assignedTo } else filter
  let filter :=
    if truthy query.search then
      match query.search with
      | some search =>
        { filter with
          or := some [.titleRegex search, .descriptionRegex search, .tagsInRegex search] }
      | none => filter
    else filter
  filter

/-- The handler `getTaskById`. -/
def getTaskById (db : Db) (user : User) (id : String) : Response :=
  match Task.findById db id with
  | .error e => .internal "Error fetching task" e
  | .ok none => .msg 404 "Task not found"
  | .ok (some task) =>
    let hasAccess :=
      user.role == "admin" ||
      user.role == "manager" ||
      task.assignedTo == user.firebaseUid ||
      task.createdBy == user.firebaseUid
    if !hasAccess then
      .msg 403 "Access denied. You can only view your own tasks."
    else
      { status := 200, message := none, task := some task, user := none, error := none }

/-- The body of `PUT /tasks/:id`: the keys of `req.body` that are paths of the
task document (`dueDate` may be sent as `null`). -/
structure TaskUpdates where
  title : Option String
  description : Option String
  status : Option String
  priority : Option String
  dueDate : Option (Option Nat)
  createdBy : Option String
  assignedTo : Option String
  tags : Option (List String)
  isArchived : Option Bool
deriving DecidableEq, Repr

/-- The call `Object.assign(task, updates)`: every key the body has is written
onto the task. -/
def assign (task : Task) (updates : TaskUpdates) : Task :=
  { task with
    title := updates.title.getD task.title
    description := updates.description.getD task.description
    status := updates.status.getD task.status
    priority := updates.priority.getD task.priority
    dueDate := updates.dueDate.getD task.dueDate
    createdBy := updates.createdBy.getD task.createdBy
    assignedTo := updates.assignedTo.getD task.assignedTo
    tags := updates.tags.getD task.tags
    isArchived := updates.isArchived.getD task.isArchived }

/-- The `canUpdate` decision of `updateTask`. -/
def canUpdate (user : User) (task : Task) : Bool :=
  user.role == "admin" ||
  user.role == "manager" ||
  task.createdBy == user.firebaseUid

/-- The handler `updateTask`: the response and the store after it. -/
def updateTask (db : Db) (user : User) (id : String) (updates : TaskUpdates) :
    Response × Db :=
  match Task.findById db id with
  | .error e => (.internal "Error updating task" e, db)
  | .ok none => (.msg 404 "Task not found", db)
  | .ok (some task) =>
    if !canUpdate user task then
      (.msg 403 "Access denied. You can only update tasks you created.", db)
    else
      let assignedUserMissing : Except String Bool :=
        match updates.assignedTo with
        | some a =>
          if a != "" && a != task.assignedTo then (User.findOne db a).map Option.isNone
          else .ok false
        | none => .ok false
      match assignedUserMissing with
      | .error e => (.internal "Error updating task" e, db)
      | .ok true => (.msg 400 "Assigned user not found", db)
      | .ok false =>
        let task1 := assign task updates
        match Task.save db task1 with
        | .error e => (.internal "Error updating task" e, db)
        | .ok db1 =>
          ({ status := 200, message := some "Task updated successfully",
             task := some task1, user := none, error := none }, db1)

/-- The `canDelete` decision of `deleteTask`. -/
def canDelete (user : User) (task : Task) : Bool :=
  user.role == "admin" ||
  task.createdBy == user.firebaseUid

/-- The handler `deleteTask`: the response and the store after it. -/
def deleteTask (db : Db) (user : User) (id : String) : Response × Db :=
  match Task.findById db id with
  | .error e => (.internal "Error deleting task" e, db)
  | .ok none => (.msg 404 "Task not found", db)
  | .ok (some task) =>
    if !canDelete user task then
      (.msg 403 "Access denied. Only admins or task creators can delete tasks.", db)
    else
      match Task.findByIdAndDelete db id with
      | .error e => (.internal "Error deleting task" e, db)
      | .ok db1 => (.msg 200 "Task deleted successfully", db1)

/-! controllers/authController.js -/

/-- The handler `updateUserRole`, at the time `now`; `role` is `req.body.role`
when it is a string, `userId` is `req.params.userId`. -/
def updateUserRole (now : Nat) (db : Db) (user : User) (userId : String)
    (role : Option String) : Response × Db :=
  match role with
  | none => (.msg 400 "Invalid role. Must be user, manager, or admin", db)
  | some r =>
    if !(["user", "manager", "admin"].contains r) then
      (.msg 400 "Invalid role. Must be user, manager, or admin", db)
    else if userId == user.firebaseUid then
      (.msg 400 "Cannot modify your own role", db)
    else
      match User.findOneAndUpdateRole now db userId r with
      | .error e => (.internal "Error updating user role" e, db)
      | .ok (none, _) => (.msg 404 "User not found", db)
      | .ok (some u, db1) =>
        ({ status := 200, message := some "User role updated successfully",
           task := none, user := some u, error := none }, db1)

/-- The handler `toggleUserStatus`, at the time `now`. -/
def toggleUserStatus (now : Nat) (db : Db) (user : User) (userId : String) : Response × Db :=
  if userId == user.firebaseUid then
    (.msg 400 "Cannot modify your own account status", db)
  else
    match User.findOne db userId with
    | .error e => (.internal "Error updating user status" e, db)
    | .ok none => (.msg 404 "User not found", db)
    | .ok (some u) =>
      let u1 := { u with isActive := !u.isActive }
      match User.save now db u1 with
      | .error e => (.internal "Error updating user status" e, db)
      | .ok (saved, db1) =>
        ({ status := 200,
           message := some (if saved.isActive then "User activated successfully"
                            else "User deactivated successfully"),
           task := none, user := some saved, error := none }, db1)

/-- The handler `deleteUser`. -/
def deleteUser (db : Db) (user : User) (userId : String) : Response × Db :=
  if userId == user.firebaseUid then
    (.msg 400 "Cannot delete your own account", db)
  else
    match User.findOneAndDelete db userId with
    | .error e => (.internal "Error deleting user" e, db)
    | .ok (none, _) => (.msg 404 "User not found", db)
    | .ok (some _, db1) => (.msg 200 "User deleted successfully", db1)

/-! middleware/auth.js -/

/-- The claims `auth.verifyIdToken` resolves to, as far as the middleware reads
them. -/
structure DecodedToken where
  uid : String
  email : Option String
  name : Option String
deriving DecidableEq, Repr

/-- What the `try` block of `authenticateUser` can throw: an error of the
identity verifier with its `code`, or any other error (of the store, of a
validator, a `TypeError`), none of which carries one of the verifier's codes. -/
inductive Thrown where
  | verifier (code : String)
  | other (message : String)
deriving DecidableEq, Repr

/-- A call `authenticateUser` makes to one of its collaborators. -/
inductive Call where
  | verifyIdToken (token : String)
  | findOne (uid : String)
  | save (uid : String)
deriving DecidableEq, Repr

/-- What a run of `authenticateUser` leaves behind: the response if one was
sent, whether `next()` was called, `req.user` and `req.firebaseUser`, the
store, and the calls made, in order. -/
structure AuthOutcome where
  response : Option Response
  nextCalled : Bool
  reqUser : Option User
  firebaseUser : Option DecodedToken
  db : Db
  calls : List Call
deriving DecidableEq, Repr

/-- The `catch` block of `authenticateUser`. -/
def authCatch (error : Thrown) : Response :=
  match error with
  | .verifier code =>
    if code == "auth/id-token-expired" then .msg 401 "Token expired. Please login again."
    else if code == "auth/id-token-revoked" then .msg 401 "Token revoked. Please login again."
    else .msg 401 "Invalid token. Authentication failed."
  | .other _ => .msg 401 "Invalid token. Authentication failed."

/-- A run that ends in the `catch` block. -/
def authThrown (error : Thrown) (db : Db) (calls : List Call) : AuthOutcome :=
  { response := some (authCatch error), nextCalled := false, reqUser := none,
    firebaseUser := none, db := db, calls := calls }

/-- The document `new User({ firebaseUid, email, displayName, role: 'user' })`
of `authenticateUser`, with the schema's setters and defaults applied, and the
two times `save()` gives a new document; reading `split` of an absent email
throws.  An absent email is kept as the empty string: the `required` validator
refuses both alike.  `toLowerCase` is `String.prototype.toLowerCase`. -/
def newUser (toLowerCase : String → String) (decodedToken : DecodedToken) (now : Nat) :
    Except String User :=
  let displayName : Except String String :=
    if truthy decodedToken.name then .ok (decodedToken.name.getD "")
    else match decodedToken.email with
      | none => .error "TypeError: Cannot read properties of undefined (reading 'split')"
      | some email => .ok (splitAtSign0 email)
  match displayName with
  | .error e => .error e
  | .ok name =>
    .ok { firebaseUid := decodedToken.uid
          email := toLowerCase (trim (decodedToken.email.getD ""))
          displayName := trim name
          role := "user"
          isActive := true
          lastLogin := now
          profile := { avatar := none, department := none, phoneNumber := none }
          createdAt := now
          updatedAt := now }

/-- The tail of `authenticateUser` once `user` is found or created: the
deactivation check, then binding and `next()`. -/
def authFinish (user : User) (decodedToken : DecodedToken) (db : Db) (calls : List Call) :
    AuthOutcome :=
  if !user.isActive then
    { response := some (.msg 403 "Account is deactivated. Contact administrator."),
      nextCalled := false, reqUser := none, firebaseUser := none, db := db, calls := calls }
  else
    { response := none, nextCalled := true, reqUser := some user,
      firebaseUser := some decodedToken, db := db, calls := calls }

/-- The middleware `authenticateUser`.  `toLowerCase` is
`String.prototype.toLowerCase`, `verifyIdToken` is the identity verifier (it
resolves to the claims or throws an error with a `code`), `now` is the clock,
`authorization` is `req.headers.authorization`. -/
def authenticateUser (toLowerCase : String → String)
    (verifyIdToken : String → Except String DecodedToken) (now : Nat)
    (db : Db) (authorization : Option String) : AuthOutcome :=
  if !truthy authorization || !startsWith (authorization.getD "") "Bearer " then
    { response := some (.msg 401 "Access denied. No token provided or invalid format."),
      nextCalled := false, reqUser := none, firebaseUser := none, db := db, calls := [] }
  else
    let token := substring (authorization.getD "") 7
    match verifyIdToken token with
    | .error code => authThrown (.verifier code) db [.verifyIdToken token]
    | .ok decodedToken =>
      let calls := [Call.verifyIdToken token, Call.findOne decodedToken.uid]
      match User.findOne db decodedToken.uid with
      | .error e => authThrown (.other e) db calls
      | .ok none =>
        match newUser toLowerCase decodedToken now with
        | .error e => authThrown (.other e) db calls
        | .ok user =>
          match User.insert db user with
          | .error e => authThrown (.other e) db (calls ++ [.save user.firebaseUid])
          | .ok db1 => authFinish user decodedToken db1 (calls ++ [.save user.firebaseUid])
      | .ok (some user) =>
        let user1 := { user with lastLogin := now }
        match User.save now db user1 with
        | .error e => authThrown (.other e) db (calls ++ [.save user1.firebaseUid])
        | .ok (saved, db1) =>
          authFinish saved decodedToken db1 (calls ++ [.save user1.firebaseUid])

/-- What a gate of `middleware/auth.js` leaves behind: the response if one was
sent, and whether `next()` was called. -/
structure GateOutcome where
  response : Option Response
  nextCalled : Bool
deriving DecidableEq, Repr

/-- The gate `authorize(...allowedRoles)`, applied to `req.user`. -/
def authorize (allowedRoles : List String) (reqUser : Option User) : GateOutcome :=
  match reqUser with
  | none => { response := some (.msg 401 "Authentication required."), nextCalled := false }
  | some user =>
    if !(allowedRoles.contains user.role) then
      { response := some (.msg 403
          ("Access denied. Required role: " ++ " or ".intercalate allowedRoles ++
            ". Your role: " ++ user.role)),
        nextCalled := false }
    else { response := none, nextCalled := true }

/-- The gate `requirePermission(permission)`, applied to `req.user`; it throws
when `hasPermission` does. -/
def requirePermission (permission : String) (reqUser : Option User) :
    Except String GateOutcome :=
  match reqUser with
  | none => .ok { response := some (.msg 401 "Authentication required."), nextCalled := false }
  | some user =>
    match user.hasPermission permission with
    | .error e => .error e
    | .ok false =>
      .ok { response := some (.msg 403 ("Access denied. Required permission: " ++ permission)),
            nextCalled := false }
    | .ok true => .ok { response := none, nextCalled := true }

/-- The gate `adminOnly = authorize('admin')`. -/
def adminOnly (reqUser : Option User) : GateOutcome :=
  authorize ["admin"] reqUser

/-- The gate `managerOrAdmin = authorize('manager', 'admin')`. -/
def managerOrAdmin (reqUser : Option User) : GateOutcome :=
  authorize ["manager", "admin"] reqUser

/-! controllers/taskController.js: statistics -/

/-- The counters of the `$group` stage of `getTaskStats`. -/
structure TaskStats where
  total : Nat
  pending : Nat
  inProgress : Nat
  completed : Nat
  highPriority : Nat
  overdue : Nat
deriving DecidableEq, Repr

/-- What `getTaskStats` sends: the counters, or status 500 with a message. -/
structure StatsResponse where
  status : Nat
  stats : Option TaskStats
  message : Option String
  error : Option String
deriving DecidableEq, Repr

/-- The `matchFilter` that `getTaskStats` builds from the bound user. -/
def getTaskStatsFilter (user : User) : Filter :=
  let matchFilter : Filter :=
    { isArchived := false, or := none, status := none, priority := none, assignedTo := none }
  if user.role == "user" then
    { matchFilter with or := some [.assignedTo user.firebaseUid, .createdBy user.firebaseUid] }
  else matchFilter

/-- The `$cond` of the `overdue` counter: a due date that is not `null`, lies
before the clock, and a status other than `completed`. -/
def isOverdue (now : Nat) (t : Task) : Bool :=
  match t.dueDate with
  | none => false
  | some due => decide (due < now) && t.status != "completed"

/-- The `$group` stage with `_id: null` over the matched tasks; over no task
at all the pipeline yields no document and the handler sends the zero
counters, which is what the sums are then. -/
def groupStats (now : Nat) (matched : List Task) : TaskStats :=
  { total := matched.length
    pending := matched.countP (fun t => t.status == "pending")
    inProgress := matched.countP (fun t => t.status == "in-progress")
    completed := matched.countP (fun t => t.status == "completed")
    highPriority := matched.countP (fun t => t.priority == "high")
    overdue := matched.countP (isOverdue now) }

/-- The handler `getTaskStats`; `rx` is the store's regular expression match
and `now` the clock. -/
def getTaskStats (rx : String → String → Bool) (now : Nat) (db : Db) (user : User) :
    StatsResponse :=
  if db.readFails then
    { status := 500, stats := none, message := some "Error fetching task statistics",
      error := some "task store read failed" }
  else
    let matched := db.tasks.filter ((getTaskStatsFilter user).selects rx)
    { status := 200, stats := some (groupStats now matched), message := none, error := none }

/-! controllers/authController.js: the profile -/

/-- A value of a key of the body of `PUT /profile`, of one of the shapes the
paths of the user schema take: a string, a boolean, or an object with the
keys of the `profile` sub-document. -/
inductive BodyValue where
  | text (s : String)
  | flag (b : Bool)
  | profile (p : Profile)
deriving DecidableEq, Repr

/-- The array `allowedUpdates` of `updateProfile`. -/
def allowedUpdates : List String := ["displayName", "profile"]

/-- The cast of a body value to a string path: a boolean is printed, an object
fails the cast. -/
def castString : BodyValue → Option String
  | .text s => some s
  | .flag b => some (if b then "true" else "false")
  | .profile _ => none

/-- The cast of a body value to a boolean path: the strings the driver reads
as booleans are converted, everything else fails the cast. -/
def castBoolean : BodyValue → Option Bool
  | .flag b => some b
  | .text s =>
    if s == "true" || s == "1" || s == "yes" then some true
    else if s == "false" || s == "0" || s == "no" then some false
    else none
  | .profile _ => none

/-- Whether one key of an update object passes the cast and, as
`runValidators: true` asks, the validators of its path. -/
def checkUpdate (toLowerCase : String → String) (kv : String × BodyValue) : Bool :=
  if kv.1 == "displayName" then
    match castString kv.2 with
    | some s => trim s != "" && decide (utf16Length (trim s) ≤ 50)
    | none => false
  else if kv.1 == "email" then
    match castString kv.2 with
    | some s => toLowerCase (trim s) != ""
    | none => false
  else if kv.1 == "firebaseUid" then
    match castString kv.2 with
    | some s => s != ""
    | none => false
  else if kv.1 == "role" then
    match castString kv.2 with
    | some s => roleEnum.contains s
    | none => false
  else if kv.1 == "isActive" then (castBoolean kv.2).isSome
  else if kv.1 == "profile" then
    match kv.2 with
    | .profile _ => true
    | _ => false
  else true

/-- The effect of one key of an update object on a user document: the path of
that name is set, with the schema's setters; a key that is no path of the
schema is dropped. -/
def setUpdate (toLowerCase : String → String) (u : User) (kv : String × BodyValue) : User :=
  if kv.1 == "displayName" then
    match castString kv.2 with
    | some s => { u with displayName := trim s }
    | none => u
  else if kv.1 == "email" then
    match castString kv.2 with
    | some s => { u with email := toLowerCase (trim s) }
    | none => u
  else if kv.1 == "firebaseUid" then
    match castString kv.2 with
    | some s => { u with firebaseUid := s }
    | none => u
  else if kv.1 == "role" then
    match castString kv.2 with
    | some s => { u with role := s }
    | none => u
  else if kv.1 == "isActive" then
    match castBoolean kv.2 with
    | some b => { u with isActive := b }
    | none => u
  else if kv.1 == "profile" then
    match kv.2 with
    | .profile p => { u with profile := p }
    | _ => u
  else u

/-- The call `User.findOneAndUpdate({ firebaseUid: uid }, updates, { new: true,
runValidators: true })` at the time `now`: the update object is cast and
validated, then the record of that identity gets its keys, and `updatedAt` the
clock; the updated record is returned.  `toLowerCase` is
`String.prototype.toLowerCase`. -/
def User.findOneAndUpdate (toLowerCase : String → String) (now : Nat) (db : Db)
    (uid : String) (updates : List (String × BodyValue)) :
    Except String (Option User × Db) :=
  if db.writeFails then .error "user store write failed"
  else if !updates.all (checkUpdate toLowerCase) then .error "User validation failed"
  else match db.users.find? (fun u => u.firebaseUid == uid) with
    | none => .ok (none, db)
    | some u =>
      let u1 := { updates.foldl (setUpdate toLowerCase) u with updatedAt := now }
      .ok (some u1, { db with
        users := db.users.map (fun v => if v.firebaseUid == uid then u1 else v) })

/-- The handler `updateProfile`, at the time `now`; `body` is `req.body`, key
by key. -/
def updateProfile (toLowerCase : String → String) (now : Nat) (db : Db) (user : User)
    (body : List (String × BodyValue)) : Response × Db :=
  let updates := body.filter (fun kv => allowedUpdates.contains kv.1)
  if updates.length == 0 then
    (.msg 400 "No valid updates provided", db)
  else
    match User.findOneAndUpdate toLowerCase now db user.firebaseUid updates with
    | .error e => (.internal "Error updating profile" e, db)
    | .ok (none, _) => (.msg 404 "User not found", db)
    | .ok (some u, db1) =>
      ({ status := 200, message := some "Profile updated successfully", task := none,
         user := some u, error := none }, db1)

/-! controllers/taskController.js: creation, the read decision, pagination -/

/-- The body of `POST /tasks`, as `createTask` destructures it; `dueDate` is
the time the date string stands for. -/
structure TaskBody where
  title : Option String
  description : Option String
  status : Option String
  priority : Option String
  dueDate : Option Nat
  assignedTo : Option String
  tags : Option (List String)
deriving DecidableEq, Repr

/-- The call `task.save()` on a document made by `new Task(...)`: validators,
then the insert under its fresh `_id`. -/
def Task.insert (db : Db) (t : Task) : Except String Db :=
  if !t.validate then .error "Task validation failed"
  else if db.writeFails then .error "task store write failed"
  else if db.tasks.any (fun s => s.id == t.id) then .error "E11000 duplicate key error"
  else .ok { db with tasks := db.tasks ++ [t] }

/-- The document `new Task({ ... })` of `createTask`; `newId` is the `_id` it
gets. -/
def newTask (newId : String) (user : User) (body : TaskBody) : Task :=
  { id := newId
    title := body.title.getD ""
    description := body.description.getD ""
    status := if truthy body.status then body.status.getD "" else "pending"
    priority := if truthy body.priority then body.priority.getD "" else "medium"
    dueDate := body.dueDate
    createdBy := user.firebaseUid
    assignedTo := if truthy body.assignedTo then body.assignedTo.getD "" else user.firebaseUid
    tags := body.tags.getD []
    isArchived := false }

/-- The handler `createTask`; `newId` is the `_id` the new document gets. -/
def createTask (newId : String) (db : Db) (user : User) (body : TaskBody) : Response × Db :=
  if !truthy body.title || !truthy body.description then
    (.msg 400 "Title and description are required", db)
  else
    let assignedUserMissing : Except String Bool :=
      match body.assignedTo with
      | some a =>
        if a != "" && a != user.firebaseUid then (User.findOne db a).map Option.isNone
        else .ok false
      | none => .ok false
    match assignedUserMissing with
    | .error e => (.internal "Error creating task" e, db)
    | .ok true => (.msg 400 "Assigned user not found", db)
    | .ok false =>
      match Task.insert db (newTask newId user body) with
      | .error e => (.internal "Error creating task" e, db)
      | .ok db1 =>
        ({ status := 201, message := some "Task created successfully",
           task := some (newTask newId user body), user := none, error := none }, db1)

/-- The `hasAccess` decision of `getTaskById`. -/
def hasAccess (user : User) (task : Task) : Bool :=
  user.role == "admin" ||
  user.role == "manager" ||
  task.assignedTo == user.firebaseUid ||
  task.createdBy == user.firebaseUid

/-- The `pagination` object of `getTasks` and `getAllUsers`. -/
structure Pagination where
  currentPage : Int
  totalPages : Int
  total : Int
  hasNext : Bool
  hasPrev : Bool
deriving DecidableEq, Repr

/-- The pagination block of `getTasks` and `getAllUsers`: `page` and `limit`
are `parseInt(page)` and `parseInt(limit)`, `total` is the count of the
documents the filter matches and `returned` the length of the page read. -/
def pagination (page limit total returned : Int) : Pagination :=
  let skip := (page - 1) * limit
  { currentPage := page
    totalPages := Int.ceil ((total : ℚ) / (limit : ℚ))
    total := total
    hasNext := decide (skip + returned < total)
    hasPrev := decide (page > 1) }

/-! frontend/src/contexts/AuthContext.js and frontend/src/pages/Tasks.js -/

/-- The function `hasRole` of the auth context, for a role given as a string:
`userProfile?.role === role`; `userProfile` is `null` until the profile is
loaded. -/
def hasRole (userProfile : Option User) (role : String) : Bool :=
  userProfile.map (fun u => u.role) == some role

/-- The function `isAdmin` of the auth context. -/
def isAdmin (userProfile : Option User) : Bool :=
  hasRole userProfile "admin"

/-- The function `canEditTask` of the task page. -/
def canEditTask (userProfile : Option User) (task : Task) : Bool :=
  isAdmin userProfile ||
  userProfile.map (fun u => u.role) == some "manager" ||
  some task.createdBy == userProfile.map (fun u => u.firebaseUid)

/-- The function `canDeleteTask` of the task page. -/
def canDeleteTask (userProfile : Option User) (task : Task) : Bool :=
  isAdmin userProfile || some task.createdBy == userProfile.map (fun u => u.firebaseUid)

/-! The role invariant of the user store -/

/-- Whether every user record of the store has one of the three roles. -/
def rolesInEnum (db : Db) : Bool :=
  db.users.all (fun v => roleEnum.contains v.role)

/-! Sample documents -/

/-- A user document with the given identity, role and active flag. -/
def sampleUser (uid role : String) (isActive : Bool) : User :=
  { firebaseUid := uid, email := uid ++ "@example.org", displayName := uid, role := role,
    isActive := isActive, lastLogin := 0,
    profile := { avatar := none, department := none, phoneNumber := none },
    createdAt := 0, updatedAt := 0 }

/-- A task that `U1` created and is assigned to. -/
def taskOfU1 : Task :=
  { id := "t1", title := "Quarterly report", description := "Numbers for the board",
    status := "pending", priority := "medium", dueDate := none, createdBy := "U1",
    assignedTo := "U1", tags := ["finance"], isArchived := false }

/-- A store with two users, a manager, an admin, a deactivated user, and the
task of `U1`. -/
def sampleDb : Db :=
  { users := [sampleUser "U1" "user" true, sampleUser "U2" "user" true,
              sampleUser "M" "manager" true, sampleUser "A" "admin" true,
              sampleUser "Z" "manager" false],
    tasks := [taskOfU1], readFails := false, writeFails := false }

/-- The query string `?search=report`. -/
def searchReport : TaskQuery :=
  { status := none, priority := none, assignedTo := none, page := none, limit := none,
    sortBy := none, sortOrder := none, search := some "report" }

/-- A verifier that accepts the token `tokZ` as the identity `Z` and refuses
every other token. -/
def sampleVerifier (token : String) : Except String DecodedToken :=
  if token == "tokZ" then .ok { uid := "Z", email := some "Z@example.org", name := none }
  else .error "auth/argument-error"

/-- A verifier that accepts every token as the unseen identity `N`, whose
claims hold a name and no email. -/
def verifierNoEmail (_token : String) : Except String DecodedToken :=
  .ok { uid := "N", email := none, name := some "Nina" }

/-- A verifier that accepts every token as the unseen identity `N`, whose
claims hold neither a name nor an email. -/
def verifierNoClaims (_token : String) : Except String DecodedToken :=
  .ok { uid := "N", email := none, name := none }

/-- A verifier that accepts every token as the unseen identity `N`, with an
email and no name. -/
def verifierNew (_token : String) : Except String DecodedToken :=
  .ok { uid := "N", email := some "Nina.Ng@Example.org", name := none }

/-- A body that carries only the key `createdBy`, with the manager's identity. -/
def updatesCreatedByM : TaskUpdates :=
  { title := none, description := none, status := none, priority := none, dueDate := none,
    createdBy := some "M", assignedTo := none, tags := none, isArchived := none }

/-- A body that carries only the key `assignedTo`, with the given value. -/
def updatesAssignedTo (uid : String) : TaskUpdates :=
  { title := none, description := none, status := none, priority := none, dueDate := none,
    createdBy := none, assignedTo := some uid, tags := none, isArchived := none }

/-- The query string of a list request without parameters. -/
def emptyQuery : TaskQuery :=
  { status := none, priority := none, assignedTo := none, page := none, limit := none,
    sortBy := none, sortOrder := none, search := none }

/-- A verifier that accepts every token as the unseen identity `N`, whose name
claim is padded with blanks. -/
def verifierPadded (_token : String) : Except String DecodedToken :=
  .ok { uid := "N", email := some "nina@example.org", name := some " Nina " }

/-- A verifier that accepts every token as the unseen identity `N`, whose name
claim is one no-break space. -/
def verifierNbsp (_token : String) : Except String DecodedToken :=
  .ok { uid := "N", email := some "nina@example.org", name := some "\u00A0" }

/-- A verifier that accepts every token as the unseen identity `N`, whose name
claim is 26 times the code point U+1F600, a string of `length` 52. -/
def verifierAstral (_token : String) : Except String DecodedToken :=
  .ok { uid := "N", email := some "nina@example.org",
        name := some ⟨List.replicate 26 (Char.ofNat 0x1F600)⟩ }

/-- An archived task of `U1`. -/
def archivedTask : Task :=
  { id := "t2", title := "Old plan", description := "Superseded", status := "completed",
    priority := "low", dueDate := none, createdBy := "U1", assignedTo := "U1", tags := [],
    isArchived := true }

/-- A task that `M` created and `A` is assigned to. -/
def taskOfM : Task :=
  { id := "t3", title := "Audit", description := "Yearly audit", status := "in-progress",
    priority := "high", dueDate := some 3, createdBy := "M", assignedTo := "A", tags := [],
    isArchived := false }

/-- A body of `PUT /profile` that asks for a new display name and, on the
side, for the admin role and a new email. -/
def bodyWithRole : List (String × BodyValue) :=
  [("role", .text "admin"), ("displayName", .text " Una "), ("email", .text "x@example.org")]

/-- A body of `POST /tasks` with a title and a description only. -/
def plainTaskBody : TaskBody :=
  { title := some "Write minutes", description := some "Of the Monday meeting", status := none,
    priority := none, dueDate := none, assignedTo := none, tags := none }

/-- A task that `U1` created and `U2` is assigned to. -/
def taskForU2 : Task :=
  { id := "t4", title := "Review", description := "Review the report", status := "pending",
    priority := "medium", dueDate := none, createdBy := "U1", assignedTo := "U2", tags := [],
    isArchived := false }

/-! Lemmas on the helpers -/

theorem startsWith_bearer (token : String) :
    startsWith ("Bearer " ++ token) "Bearer " = true := by
  simp [startsWith, String.data_append]

theorem substring_bearer (token : String) :
    substring ("Bearer " ++ token) 7 = token := by
  simp [substring, String.data_append]

theorem truthy_bearer (token : String) : truthy (some ("Bearer " ++ token)) = true := by
  have h : ("Bearer " ++ token) ≠ "" := by
    intro h
    have h2 := congrArg String.data h
    simp [String.data_append] at h2
  simp [truthy, h]

/-- Without a search term, the filter built for a requester of role `user`
selects only tasks the requester created or is assigned to. -/
theorem getTasksFilter_user_scope (rx : String → String → Bool) (user : User)
    (query : TaskQuery) (t : Task) (hrole : user.role = "user")
    (hsearch : truthy query.search = false)
    (hsel : (getTasksFilter user query).selects rx t = true) :
    t.createdBy = user.firebaseUid ∨ t.assignedTo = user.firebaseUid := by
  have hor : (getTasksFilter user query).or
      = some [.assignedTo user.firebaseUid, .createdBy user.firebaseUid] := by
    simp only [getTasksFilter, hrole, hsearch, Bool.false_eq_true, if_false, beq_self_eq_true,
      if_true]
    split_ifs <;> rfl
  simp only [Filter.selects, hor, Bool.and_eq_true] at hsel
  have h := hsel.1.1.1.2
  simp [Clause.holds] at h
  rcases h with h | h
  · exact Or.inr h
  · exact Or.inl h

/-! Task policies -/

/-- C1 (failing input): for the requester `U2` of role `user` and the query
`?search=report`, the filter built by `getTasks` carries the three search
clauses in `$or` and no clause on the requester; it selects the task that `U1`
created and is assigned to exactly when the store's regular expression match
finds `report` in the title, the description or a tag, whatever the matcher. -/
theorem getTasks_search_replaces_user_scope :
    (sampleUser "U2" "user" true).role = "user" ∧
    taskOfU1.createdBy ≠ (sampleUser "U2" "user" true).firebaseUid ∧
    taskOfU1.assignedTo ≠ (sampleUser "U2" "user" true).firebaseUid ∧
    (getTasksFilter (sampleUser "U2" "user" true) searchReport).or
      = some [.titleRegex "report", .descriptionRegex "report", .tagsInRegex "report"] ∧
    ∀ rx : String → String → Bool,
      (getTasksFilter (sampleUser "U2" "user" true) searchReport).selects rx taskOfU1
        = (rx "report" "Quarterly report" || rx "report" "Numbers for the board"
            || rx "report" "finance") := by
  refine ⟨by decide, by decide, by decide, by decide, ?_⟩
  intro rx
  simp [getTasksFilter, Filter.selects, Clause.holds, sampleUser, searchReport, taskOfU1,
    truthy, Bool.or_assoc]

/-- C2: for a task the store holds, `getTaskById` returns the task exactly when
the requester is admin or manager or is the task's assignee or creator, and
answers 403 in every other case. -/
theorem getTaskById_access (db : Db) (user : User) (id : String) (task : Task)
    (hfind : Task.findById db id = .ok (some task)) :
    ((user.role = "admin" ∨ user.role = "manager" ∨
        task.assignedTo = user.firebaseUid ∨ task.createdBy = user.firebaseUid) ↔
      getTaskById db user id =
        { status := 200, message := none, task := some task, user := none, error := none }) ∧
    (¬(user.role = "admin" ∨ user.role = "manager" ∨
        task.assignedTo = user.firebaseUid ∨ task.createdBy = user.firebaseUid) →
      getTaskById db user id = .msg 403 "Access denied. You can only view your own tasks.") := by
  by_cases h : user.role = "admin" ∨ user.role = "manager" ∨
      task.assignedTo = user.firebaseUid ∨ task.createdBy = user.firebaseUid
  · have hb : (user.role == "admin" || user.role == "manager" ||
        task.assignedTo == user.firebaseUid || task.createdBy == user.firebaseUid) = true := by
      simpa [or_assoc] using h
    simp [getTaskById, hfind, hb, h]
  · have hb : (user.role == "admin" || user.role == "manager" ||
        task.assignedTo == user.firebaseUid || task.createdBy == user.firebaseUid) = false := by
      simpa [or_assoc, and_assoc] using h
    simp [getTaskById, hfind, hb, h, Response.msg]

/-- Witness of C2: the manager reads the task of `U1`. -/
theorem getTaskById_access_witness :
    ((sampleUser "M" "manager" true).role = "admin" ∨
        (sampleUser "M" "manager" true).role = "manager" ∨
        taskOfU1.assignedTo = (sampleUser "M" "manager" true).firebaseUid ∨
        taskOfU1.createdBy = (sampleUser "M" "manager" true).firebaseUid) ∧
      getTaskById sampleDb (sampleUser "M" "manager" true) "t1" =
        { status := 200, message := none, task := some taskOfU1, user := none,
          error := none } :=
  ⟨by decide,
   (getTaskById_access sampleDb (sampleUser "M" "manager" true) "t1" taskOfU1 rfl).1.mp
     (by decide)⟩

/-- A successful `Task.findById` means the read did not throw. -/
theorem findById_ok_readFails {db : Db} {id : String} {found : Option Task}
    (h : Task.findById db id = .ok found) :
    db.readFails = false ∧ db.tasks.find? (fun t => t.id == id) = found := by
  unfold Task.findById at h
  split at h
  · cases h
  · rename_i hr
    injection h with h
    exact ⟨by simpa using hr, h⟩

/-- After `Task.findByIdAndDelete`, no task of that id is found. -/
theorem find?_filter_ne (tasks : List Task) (id : String) :
    (tasks.filter (fun t => t.id != id)).find? (fun t => t.id == id) = none := by
  rw [List.find?_eq_none]
  intro t ht
  have h := (List.mem_filter.mp ht).2
  simpa using h

/-- C3: for a task the store holds and a store that accepts writes,
`deleteTask` removes the task exactly when the requester is admin or is the
task's creator (the answer is then 200 and only that task is gone); in every
other case it answers 403 and the store is unchanged, in particular for a
manager who is not the creator. -/
theorem deleteTask_permission (db : Db) (user : User) (id : String) (task : Task)
    (hfind : Task.findById db id = .ok (some task)) (hwrite : db.writeFails = false) :
    ((user.role = "admin" ∨ task.createdBy = user.firebaseUid) ↔
      Task.findById (deleteTask db user id).2 id = .ok none) ∧
    ((user.role = "admin" ∨ task.createdBy = user.firebaseUid) →
      deleteTask db user id =
        (.msg 200 "Task deleted successfully",
         { db with tasks := db.tasks.filter (fun t => t.id != id) })) ∧
    (¬(user.role = "admin" ∨ task.createdBy = user.firebaseUid) →
      deleteTask db user id =
        (.msg 403 "Access denied. Only admins or task creators can delete tasks.", db)) ∧
    (user.role = "manager" → task.createdBy ≠ user.firebaseUid →
      deleteTask db user id =
        (.msg 403 "Access denied. Only admins or task creators can delete tasks.", db)) := by
  have hread := (findById_ok_readFails hfind).1
  have hyes : (user.role = "admin" ∨ task.createdBy = user.firebaseUid) →
      deleteTask db user id =
        (.msg 200 "Task deleted successfully",
         { db with tasks := db.tasks.filter (fun t => t.id != id) }) := by
    intro h
    have hb : canDelete user task = true := by simpa [canDelete] using h
    simp [deleteTask, hfind, hb, Task.findByIdAndDelete, hwrite]
  have hno : ¬(user.role = "admin" ∨ task.createdBy = user.firebaseUid) →
      deleteTask db user id =
        (.msg 403 "Access denied. Only admins or task creators can delete tasks.", db) := by
    intro h
    have hb : canDelete user task = false := by simpa [canDelete] using h
    simp [deleteTask, hfind, hb]
  refine ⟨⟨fun h => ?_, fun h => ?_⟩, hyes, hno, fun hm hc => hno ?_⟩
  · rw [hyes h]
    simp [Task.findById, hread, find?_filter_ne]
  · by_contra hn
    rw [hno hn, hfind] at h
    cases h
  · rintro (h | h)
    · rw [hm] at h
      exact absurd h (by decide)
    · exact hc h

/-- Witness of C3: `U1` deletes the task it created. -/
theorem deleteTask_permission_witness :
    Task.findById sampleDb "t1" = .ok (some taskOfU1) ∧
    deleteTask sampleDb (sampleUser "U1" "user" true) "t1" =
      (.msg 200 "Task deleted successfully",
       { sampleDb with tasks := sampleDb.tasks.filter (fun t => t.id != "t1") }) :=
  ⟨rfl,
   (deleteTask_permission sampleDb (sampleUser "U1" "user" true) "t1" taskOfU1 rfl rfl).2.1
     (Or.inr (by decide))⟩

/-- C4: for a task the store holds, `updateTask` gets past its permission check
(does not answer 403) exactly when the requester is admin or manager or is the
task's creator; in every other case, that of an assignee of role `user` who is
not the creator among them, it answers 403 and the store, so the task, is
unchanged. -/
theorem updateTask_permission (db : Db) (user : User) (id : String) (task : Task)
    (updates : TaskUpdates) (hfind : Task.findById db id = .ok (some task)) :
    ((user.role = "admin" ∨ user.role = "manager" ∨ task.createdBy = user.firebaseUid) ↔
      (updateTask db user id updates).1.status ≠ 403) ∧
    (¬(user.role = "admin" ∨ user.role = "manager" ∨ task.createdBy = user.firebaseUid) →
      updateTask db user id updates =
        (.msg 403 "Access denied. You can only update tasks you created.", db) ∧
      Task.findById (updateTask db user id updates).2 id = .ok (some task)) := by
  have hno : ¬(user.role = "admin" ∨ user.role = "manager" ∨
      task.createdBy = user.firebaseUid) →
      updateTask db user id updates =
        (.msg 403 "Access denied. You can only update tasks you created.", db) := by
    intro h
    have hb : canUpdate user task = false := by simpa [canUpdate, and_assoc] using h
    simp [updateTask, hfind, hb]
  refine ⟨⟨fun h => ?_, fun h => ?_⟩, fun h => ⟨hno h, by rw [hno h]; exact hfind⟩⟩
  · have hb : canUpdate user task = true := by simpa [canUpdate, or_assoc] using h
    simp only [updateTask, hfind, hb, Bool.not_true, Bool.false_eq_true, if_false]
    split
    · simp [Response.internal]
    · simp [Response.msg]
    · split <;> simp [Response.internal]
  · by_contra hn
    rw [hno hn] at h
    exact h rfl

/-- Witness of C4: `U2`, of role `user` and not the creator, is refused. -/
theorem updateTask_permission_witness :
    Task.findById sampleDb "t1" = .ok (some taskOfU1) ∧
    updateTask sampleDb (sampleUser "U2" "user" true) "t1"
        { title := some "Mine now", description := none, status := none, priority := none,
          dueDate := none, createdBy := none, assignedTo := none, tags := none,
          isArchived := none } =
      (.msg 403 "Access denied. You can only update tasks you created.", sampleDb) :=
  ⟨rfl,
   ((updateTask_permission sampleDb (sampleUser "U2" "user" true) "t1" taskOfU1
      { title := some "Mine now", description := none, status := none, priority := none,
        dueDate := none, createdBy := none, assignedTo := none, tags := none,
        isArchived := none } rfl).2 (by decide)).1⟩

/-! Permission derivation -/

/-- C5: the permissions derived for a user are, for the role `user`, the two
of a user, for `manager` the three of a manager, for `admin` the five of an
admin, and two users of the same role have the same permissions. -/
theorem permissions_of_role (u : User) :
    (u.role = "user" → u.permissions = .array ["read:own-tasks", "create:tasks"]) ∧
    (u.role = "manager" →
      u.permissions = .array ["read:all-tasks", "create:tasks", "update:all-tasks"]) ∧
    (u.role = "admin" →
      u.permissions = .array ["read:all-tasks", "create:tasks", "update:all-tasks",
                              "delete:all-tasks", "manage:users"]) ∧
    (∀ v : User, v.role = u.role → v.permissions = u.permissions) := by
  refine ⟨fun h => ?_, fun h => ?_, fun h => ?_, fun v h => ?_⟩
  · simp [User.permissions, rolePermissions, h]
  · simp [User.permissions, rolePermissions, h]
  · simp [User.permissions, rolePermissions, h]
  · simp [User.permissions, h]

/-- Witness of C5: the permissions of the sample manager, and of the
deactivated manager, who has the same role. -/
theorem permissions_of_role_witness :
    (sampleUser "M" "manager" true).permissions
      = .array ["read:all-tasks", "create:tasks", "update:all-tasks"] ∧
    (sampleUser "Z" "manager" false).permissions = (sampleUser "M" "manager" true).permissions :=
  ⟨(permissions_of_role (sampleUser "M" "manager" true)).2.1 rfl,
   (permissions_of_role (sampleUser "M" "manager" true)).2.2.2 (sampleUser "Z" "manager" false)
     rfl⟩

/-- A role that is none of the three and is not a property name inherited from
`Object.prototype` derives the empty permission set, and `hasPermission` is
false for every permission. -/
theorem permissions_unknown_role (u : User) (permission : String)
    (hrole : u.role ∉ roleEnum) (hproto : u.role ∉ objectPrototypeKeys) :
    u.permissions = .array [] ∧ u.hasPermission permission = .ok false := by
  have h1 : u.role ≠ "user" := fun h => hrole (by simp [roleEnum, h])
  have h2 : u.role ≠ "manager" := fun h => hrole (by simp [roleEnum, h])
  have h3 : u.role ≠ "admin" := fun h => hrole (by simp [roleEnum, h])
  have hperm : u.permissions = .array [] := by
    simp [User.permissions, rolePermissions, h1, h2, h3, hproto]
  exact ⟨hperm, by simp [User.hasPermission, hperm]⟩

/-- C6 (failing input): for the role values `constructor`, `toString` and
`__proto__` the property read finds the value inherited from the prototype, so
the derived permissions are not the empty array, and `hasPermission` throws
instead of answering false. -/
theorem permissions_prototype_role :
    (sampleUser "X" "constructor" true).permissions = .inherited "constructor" ∧
    (sampleUser "X" "toString" true).permissions = .inherited "toString" ∧
    (sampleUser "X" "__proto__" true).permissions = .inherited "__proto__" ∧
    (sampleUser "X" "constructor" true).permissions ≠ .array [] ∧
    (sampleUser "X" "constructor" true).hasPermission "create:tasks"
      = .error "TypeError: this.permissions.includes is not a function" ∧
    (sampleUser "X" "constructor" true).hasPermission "create:tasks" ≠ .ok false := by
  have herr : (sampleUser "X" "constructor" true).hasPermission "create:tasks"
      = .error "TypeError: this.permissions.includes is not a function" := rfl
  refine ⟨by decide, by decide, by decide, by decide, herr, fun h => ?_⟩
  rw [herr] at h
  cases h

/-! Self-protection of the user administration -/

/-- C7 (counterexample): the admin `A` targeting its own identity gets status
400 from `updateUserRole`, `toggleUserStatus` and `deleteUser`, which is not
the 403 of a Forbidden answer. -/
theorem self_modification_not_403 :
    (updateUserRole 7 sampleDb (sampleUser "A" "admin" true) "A" (some "user")).1
      = .msg 400 "Cannot modify your own role" ∧
    (toggleUserStatus 7 sampleDb (sampleUser "A" "admin" true) "A").1
      = .msg 400 "Cannot modify your own account status" ∧
    (deleteUser sampleDb (sampleUser "A" "admin" true) "A").1
      = .msg 400 "Cannot delete your own account" ∧
    (updateUserRole 7 sampleDb (sampleUser "A" "admin" true) "A" (some "user")).1.status ≠ 403 ∧
    (toggleUserStatus 7 sampleDb (sampleUser "A" "admin" true) "A").1.status ≠ 403 ∧
    (deleteUser sampleDb (sampleUser "A" "admin" true) "A").1.status ≠ 403 := by
  decide

/-- C7 (amended): for every requester, every store and every body, the three
operations called on the requester's own identity are rejected with status
400: `toggleUserStatus` and `deleteUser` with their self-modification message,
`updateUserRole` with the self-modification message when the body's role is one
of the three roles and with the invalid-role message otherwise. -/
theorem self_modification_rejected (now : Nat) (db : Db) (admin : User)
    (role : Option String) :
    (updateUserRole now db admin admin.firebaseUid role).1 =
      .msg 400 (if (match role with
                    | some r => ["user", "manager", "admin"].contains r
                    | none => false)
                then "Cannot modify your own role"
                else "Invalid role. Must be user, manager, or admin") ∧
    (toggleUserStatus now db admin admin.firebaseUid).1
      = .msg 400 "Cannot modify your own account status" ∧
    (deleteUser db admin admin.firebaseUid).1 = .msg 400 "Cannot delete your own account" ∧
    (updateUserRole now db admin admin.firebaseUid role).1.status = 400 ∧
    (toggleUserStatus now db admin admin.firebaseUid).1.status = 400 ∧
    (deleteUser db admin admin.firebaseUid).1.status = 400 := by
  have h1 : (updateUserRole now db admin admin.firebaseUid role).1 =
      .msg 400 (if (match role with
                    | some r => ["user", "manager", "admin"].contains r
                    | none => false)
                then "Cannot modify your own role"
                else "Invalid role. Must be user, manager, or admin") := by
    cases role with
    | none => simp [updateUserRole]
    | some r =>
      by_cases h : ["user", "manager", "admin"].contains r = true
      · simp only [updateUserRole, h, Bool.not_true, Bool.false_eq_true, if_false,
          beq_self_eq_true, if_true]
      · simp only [Bool.not_eq_true] at h
        simp only [updateUserRole, h, Bool.not_false, if_true, Bool.false_eq_true, if_false]
  have h2 : (toggleUserStatus now db admin admin.firebaseUid).1
      = .msg 400 "Cannot modify your own account status" := by
    simp [toggleUserStatus]
  have h3 : (deleteUser db admin admin.firebaseUid).1
      = .msg 400 "Cannot delete your own account" := by
    simp [deleteUser]
  refine ⟨h1, h2, h3, ?_, ?_, ?_⟩
  · rw [h1]; rfl
  · rw [h2]; rfl
  · rw [h3]; rfl

/-- C8: for every requester, every store and every body, `updateUserRole`,
`toggleUserStatus` and `deleteUser` called on the requester's own identity
return the store they were given: every user record, the requester's role,
active flag and existence among them, is as before. -/
theorem self_modification_store_unchanged (now : Nat) (db : Db) (user : User)
    (role : Option String) :
    (updateUserRole now db user user.firebaseUid role).2 = db ∧
    (toggleUserStatus now db user user.firebaseUid).2 = db ∧
    (deleteUser db user user.firebaseUid).2 = db ∧
    (∀ uid : String,
      User.findOne (updateUserRole now db user user.firebaseUid role).2 uid
        = User.findOne db uid ∧
      User.findOne (toggleUserStatus now db user user.firebaseUid).2 uid = User.findOne db uid ∧
      User.findOne (deleteUser db user user.firebaseUid).2 uid = User.findOne db uid) := by
  have h1 : (updateUserRole now db user user.firebaseUid role).2 = db := by
    cases role with
    | none => simp [updateUserRole]
    | some r =>
      by_cases h : ["user", "manager", "admin"].contains r = true
      · simp only [updateUserRole, h, Bool.not_true, Bool.false_eq_true, if_false,
          beq_self_eq_true, if_true]
      · simp only [Bool.not_eq_true] at h
        simp only [updateUserRole, h, Bool.not_false, if_true]
  have h2 : (toggleUserStatus now db user user.firebaseUid).2 = db := by
    simp [toggleUserStatus]
  have h3 : (deleteUser db user user.firebaseUid).2 = db := by
    simp [deleteUser]
  exact ⟨h1, h2, h3, fun uid => by rw [h1, h2, h3]; exact ⟨rfl, rfl, rfl⟩⟩

/-! The authorization guard -/

/-- The validators do not read `lastLogin`. -/
theorem validate_lastLogin (user : User) (now : Nat) :
    User.validate { user with lastLogin := now } = user.validate := rfl

/-- The validators do not read `updatedAt`. -/
theorem validate_updatedAt (user : User) (now : Nat) :
    User.validate { user with updatedAt := now } = user.validate := rfl

/-- What a successful `save()` of a read document did: the document passed the
validators, and either it was as stored and nothing was written, or the
records of its identity were replaced by it with `updatedAt` the clock. -/
theorem save_ok_cases {now : Nat} {db db1 : Db} {user saved : User}
    (h : User.save now db user = .ok (saved, db1)) :
    user.validate = true ∧
    ((saved = user ∧ db1 = db ∧
        db.users.find? (fun v => v.firebaseUid == user.firebaseUid) = some user) ∨
      (saved = { user with updatedAt := now } ∧ db.writeFails = false ∧
        db1 = { db with
          users := db.users.map (fun v =>
            if v.firebaseUid == user.firebaseUid then { user with updatedAt := now }
            else v) })) := by
  unfold User.save at h
  split_ifs at h with h1 h2 h3
  · injection h with h
    injection h with hs hd
    exact ⟨by simpa using h1, Or.inl ⟨hs.symm, hd.symm, by simpa using h2⟩⟩
  · injection h with h
    injection h with hs hd
    exact ⟨by simpa using h1, Or.inr ⟨hs.symm, by simpa using h3, hd.symm⟩⟩

/-- The document a successful `save()` returns differs from the one given at
most in `updatedAt`. -/
theorem save_ok_fields {now : Nat} {db db1 : Db} {user saved : User}
    (h : User.save now db user = .ok (saved, db1)) :
    saved.firebaseUid = user.firebaseUid ∧ saved.role = user.role ∧
    saved.isActive = user.isActive ∧ saved.validate = true := by
  obtain ⟨hval, hcase⟩ := save_ok_cases h
  rcases hcase with ⟨hs, -, -⟩ | ⟨hs, -, -⟩
  · rw [hs]
    exact ⟨rfl, rfl, rfl, hval⟩
  · rw [hs]
    exact ⟨rfl, rfl, rfl, hval⟩

/-- A document that passes the validators is saved on a store that accepts
writes. -/
theorem save_succeeds (now : Nat) (db : Db) (user : User) (hvalid : user.validate = true)
    (hwrite : db.writeFails = false) : ∃ r, User.save now db user = .ok r := by
  unfold User.save
  simp only [hvalid, hwrite, Bool.not_true, Bool.false_eq_true, if_false]
  split_ifs <;> exact ⟨_, rfl⟩

/-- The outcome of `authenticateUser` for a bearer token that verifies and
whose identity has a record: the result of saving the login time decides. -/
theorem authenticateUser_existing (toLowerCase : String → String)
    (verifyIdToken : String → Except String DecodedToken)
    (now : Nat) (db : Db) (token : String) (decodedToken : DecodedToken) (user : User)
    (hverify : verifyIdToken token = .ok decodedToken)
    (hfind : User.findOne db decodedToken.uid = .ok (some user)) :
    authenticateUser toLowerCase verifyIdToken now db (some ("Bearer " ++ token)) =
      match User.save now db { user with lastLogin := now } with
      | .error e =>
        authThrown (.other e) db
          [.verifyIdToken token, .findOne decodedToken.uid, .save user.firebaseUid]
      | .ok (saved, db1) =>
        authFinish saved decodedToken db1
          [.verifyIdToken token, .findOne decodedToken.uid, .save user.firebaseUid] := by
  simp only [authenticateUser, truthy_bearer, Option.getD_some, startsWith_bearer,
    substring_bearer, hverify, hfind, Bool.not_true, Bool.or_self, Bool.false_eq_true,
    if_false]
  cases User.save now db { user with lastLogin := now } <;> rfl

/-- C9: when the token verifies and the record of its identity has
`isActive = false`, `authenticateUser` does not call `next`, binds no
`req.user`, and answers 403 or 401, whatever the record's role; the answer is
the 403 of a deactivated account whenever the record satisfies the schema and
the store accepts the write of the login time. -/
theorem authenticateUser_deactivated (toLowerCase : String → String)
    (verifyIdToken : String → Except String DecodedToken)
    (now : Nat) (db : Db) (token : String) (decodedToken : DecodedToken) (user : User)
    (hverify : verifyIdToken token = .ok decodedToken)
    (hfind : User.findOne db decodedToken.uid = .ok (some user))
    (hinactive : user.isActive = false) :
    (authenticateUser toLowerCase verifyIdToken now db
      (some ("Bearer " ++ token))).nextCalled = false ∧
    (authenticateUser toLowerCase verifyIdToken now db
      (some ("Bearer " ++ token))).reqUser = none ∧
    (∃ r, (authenticateUser toLowerCase verifyIdToken now db
        (some ("Bearer " ++ token))).response = some r ∧
      (r.status = 403 ∨ r.status = 401)) ∧
    (user.validate = true → db.writeFails = false →
      (authenticateUser toLowerCase verifyIdToken now db (some ("Bearer " ++ token))).response
        = some (.msg 403 "Account is deactivated. Contact administrator.")) := by
  rw [authenticateUser_existing toLowerCase verifyIdToken now db token decodedToken user
    hverify hfind]
  cases hsave : User.save now db { user with lastLogin := now } with
  | error e =>
    refine ⟨by simp [authThrown], by simp [authThrown], ?_, ?_⟩
    · exact ⟨_, rfl, Or.inr rfl⟩
    · intro hvalid hwrite
      obtain ⟨r, hr⟩ := save_succeeds now db { user with lastLogin := now }
        ((validate_lastLogin user now).trans hvalid) hwrite
      rw [hr] at hsave
      cases hsave
  | ok r =>
    obtain ⟨saved, db1⟩ := r
    have hact : saved.isActive = false := (save_ok_fields hsave).2.2.1.trans hinactive
    refine ⟨by simp [authFinish, hact], by simp [authFinish, hact], ?_, ?_⟩
    · exact ⟨.msg 403 "Account is deactivated. Contact administrator.",
        by simp [authFinish, hact], Or.inl rfl⟩
    · intro _ _
      simp [authFinish, hact]

/-- Witness of C9: the deactivated manager `Z` presents a valid token. -/
theorem authenticateUser_deactivated_witness :
    sampleVerifier "tokZ" = .ok { uid := "Z", email := some "Z@example.org", name := none } ∧
    User.findOne sampleDb "Z" = .ok (some (sampleUser "Z" "manager" false)) ∧
    (authenticateUser asciiLowerCase sampleVerifier 7 sampleDb
      (some ("Bearer " ++ "tokZ"))).nextCalled = false ∧
    (authenticateUser asciiLowerCase sampleVerifier 7 sampleDb
      (some ("Bearer " ++ "tokZ"))).reqUser = none ∧
    (authenticateUser asciiLowerCase sampleVerifier 7 sampleDb
      (some ("Bearer " ++ "tokZ"))).response
      = some (.msg 403 "Account is deactivated. Contact administrator.") :=
  have h := authenticateUser_deactivated asciiLowerCase sampleVerifier 7 sampleDb "tokZ"
    { uid := "Z", email := some "Z@example.org", name := none } (sampleUser "Z" "manager" false)
    rfl rfl rfl
  ⟨rfl, rfl, h.1, h.2.1, h.2.2.2 (by decide) rfl⟩

/-- C10: when the `Authorization` header is absent, empty, or does not start
with `Bearer `, `authenticateUser` answers 401, does not call `next`, makes no
call to the verifier or the store and leaves the store as it was; the outcome
is the same for every lower-casing, verifier and clock, and the response for
every store. -/
theorem authenticateUser_no_bearer (toLowerCase : String → String)
    (verifyIdToken : String → Except String DecodedToken)
    (now : Nat) (db : Db) (authorization : Option String)
    (h : authorization = none ∨ authorization = some "" ∨
      ∃ header, authorization = some header ∧ startsWith header "Bearer " = false) :
    authenticateUser toLowerCase verifyIdToken now db authorization =
      { response := some (.msg 401 "Access denied. No token provided or invalid format."),
        nextCalled := false, reqUser := none, firebaseUser := none, db := db, calls := [] } ∧
    (∀ (toLowerCase2 : String → String)
        (verifyIdToken2 : String → Except String DecodedToken) (now2 : Nat),
      authenticateUser toLowerCase2 verifyIdToken2 now2 db authorization =
        authenticateUser toLowerCase verifyIdToken now db authorization) ∧
    (∀ db2 : Db,
      (authenticateUser toLowerCase verifyIdToken now db2 authorization).response =
        (authenticateUser toLowerCase verifyIdToken now db authorization).response) := by
  have hcond : (!truthy authorization || !startsWith (authorization.getD "") "Bearer ") = true := by
    rcases h with h | h | ⟨header, h, hs⟩
    · simp [h, truthy]
    · simp [h, truthy]
    · simp [h, hs]
  have key : ∀ (l : String → String) (v : String → Except String DecodedToken) (n : Nat)
      (d : Db), authenticateUser l v n d authorization =
        { response := some (.msg 401 "Access denied. No token provided or invalid format."),
          nextCalled := false, reqUser := none, firebaseUser := none, db := d, calls := [] } := by
    intro l v n d
    simp only [authenticateUser, hcond, if_true]
  refine ⟨key _ _ _ _, fun l v n => ?_, fun d => ?_⟩
  · rw [key l v n db, key toLowerCase verifyIdToken now db]
  · rw [key toLowerCase verifyIdToken now d, key toLowerCase verifyIdToken now db]

/-- Witness of C10: a `Basic` credential is refused before any call is made. -/
theorem authenticateUser_no_bearer_witness :
    startsWith "Basic dXNlcjpwdw==" "Bearer " = false ∧
    authenticateUser asciiLowerCase sampleVerifier 7 sampleDb (some "Basic dXNlcjpwdw==") =
      { response := some (.msg 401 "Access denied. No token provided or invalid format."),
        nextCalled := false, reqUser := none, firebaseUser := none, db := sampleDb,
        calls := [] } :=
  ⟨by decide,
   (authenticateUser_no_bearer asciiLowerCase sampleVerifier 7 sampleDb (some "Basic dXNlcjpwdw==")
     (Or.inr (Or.inr ⟨"Basic dXNlcjpwdw==", rfl, by decide⟩))).1⟩

/-- The answer of the `catch` block always has status 401. -/
theorem authCatch_status (error : Thrown) : (authCatch error).status = 401 := by
  cases error with
  | verifier code =>
    simp only [authCatch]
    split_ifs <;> rfl
  | other message => rfl

/-- Whatever `authFinish` sends has status 403. -/
theorem authFinish_status (user : User) (decodedToken : DecodedToken) (db : Db)
    (calls : List Call) (r : Response)
    (h : (authFinish user decodedToken db calls).response = some r) : r.status = 403 := by
  unfold authFinish at h
  split_ifs at h
  injection h with h
  rw [← h]
  rfl

/-- Every response `authenticateUser` sends has status 401 or 403: no path of
the middleware answers with a 500. -/
theorem authenticateUser_status (toLowerCase : String → String)
    (verifyIdToken : String → Except String DecodedToken)
    (now : Nat) (db : Db) (authorization : Option String) (r : Response)
    (h : (authenticateUser toLowerCase verifyIdToken now db authorization).response = some r) :
    r.status = 401 ∨ r.status = 403 := by
  unfold authenticateUser at h
  have hthrown : ∀ (e : Thrown) (d : Db) (cs : List Call),
      (authThrown e d cs).response = some r → r.status = 401 := by
    intro e d cs he
    simp only [authThrown] at he
    injection he with he
    rw [← he]
    exact authCatch_status e
  split_ifs at h
  · injection h with h
    rw [← h]
    exact Or.inl rfl
  · dsimp only at h
    split at h
    · exact Or.inl (hthrown _ _ _ h)
    · split at h
      · exact Or.inl (hthrown _ _ _ h)
      · split at h
        · exact Or.inl (hthrown _ _ _ h)
        · split at h
          · exact Or.inl (hthrown _ _ _ h)
          · exact Or.inr (authFinish_status _ _ _ _ r h)
      · split at h
        · exact Or.inl (hthrown _ _ _ h)
        · exact Or.inr (authFinish_status _ _ _ _ r h)

/-- The outcome of `authenticateUser` for a bearer token the verifier refuses. -/
theorem authenticateUser_refused (toLowerCase : String → String)
    (verifyIdToken : String → Except String DecodedToken)
    (now : Nat) (db : Db) (token code : String) (hverify : verifyIdToken token = .error code) :
    authenticateUser toLowerCase verifyIdToken now db (some ("Bearer " ++ token)) =
      authThrown (.verifier code) db [.verifyIdToken token] := by
  simp only [authenticateUser, truthy_bearer, Option.getD_some, startsWith_bearer,
    substring_bearer, hverify, Bool.not_true, Bool.or_self, Bool.false_eq_true, if_false]

/-- C11: when the verifier refuses the bearer token with a failure code,
`authenticateUser` answers 401 with the expired message for
`auth/id-token-expired`, the revoked message for `auth/id-token-revoked` and
the invalid-token message for every other code; it does not call `next`, binds
no user and leaves the store as it was; the three answers are pairwise
distinct. -/
theorem authenticateUser_verifier_failure
    (toLowerCase : String → String)
    (verifyIdToken : String → Except String DecodedToken) (now : Nat) (db : Db)
    (token code : String) (hverify : verifyIdToken token = .error code) :
    (authenticateUser toLowerCase verifyIdToken now db (some ("Bearer " ++ token))).response =
      some (.msg 401
        (if code = "auth/id-token-expired" then "Token expired. Please login again."
         else if code = "auth/id-token-revoked" then "Token revoked. Please login again."
         else "Invalid token. Authentication failed.")) ∧
    (authenticateUser toLowerCase verifyIdToken now db
      (some ("Bearer " ++ token))).nextCalled = false ∧
    (authenticateUser toLowerCase verifyIdToken now db
      (some ("Bearer " ++ token))).reqUser = none ∧
    (authenticateUser toLowerCase verifyIdToken now db (some ("Bearer " ++ token))).db = db ∧
    authCatch (.verifier "auth/id-token-expired")
      ≠ authCatch (.verifier "auth/id-token-revoked") ∧
    (∀ other : String, other ≠ "auth/id-token-expired" → other ≠ "auth/id-token-revoked" →
      authCatch (.verifier other) ≠ authCatch (.verifier "auth/id-token-expired") ∧
      authCatch (.verifier other) ≠ authCatch (.verifier "auth/id-token-revoked")) := by
  rw [authenticateUser_refused toLowerCase verifyIdToken now db token code hverify]
  refine ⟨?_, rfl, rfl, rfl, by decide, fun other h1 h2 => ?_⟩
  · simp only [authThrown, authCatch, beq_iff_eq]
    split_ifs <;> rfl
  · have h : authCatch (.verifier other) = .msg 401 "Invalid token. Authentication failed." := by
      simp [authCatch, h1, h2]
    rw [h]
    exact ⟨by decide, by decide⟩

/-- Witness of C11: the sample verifier refuses the token `stale`. -/
theorem authenticateUser_verifier_failure_witness :
    sampleVerifier "stale" = .error "auth/argument-error" ∧
    (authenticateUser asciiLowerCase sampleVerifier 7 sampleDb
      (some ("Bearer " ++ "stale"))).response =
      some (.msg 401 "Invalid token. Authentication failed.") ∧
    (authenticateUser asciiLowerCase sampleVerifier 7 sampleDb
      (some ("Bearer " ++ "stale"))).nextCalled
      = false :=
  have h := authenticateUser_verifier_failure asciiLowerCase sampleVerifier 7 sampleDb "stale"
    "auth/argument-error" rfl
  ⟨rfl, h.1, h.2.1⟩

/-- C12 (failing input): with a token that verifies, a store whose read throws,
a store whose write throws, and claims without email and name for an unseen
identity each end in the answer 401 `Invalid token`, not in a 500. -/
theorem authenticateUser_store_failure_401 :
    (authenticateUser asciiLowerCase sampleVerifier 7 { sampleDb with readFails := true }
        (some "Bearer tokZ")).response
      = some (.msg 401 "Invalid token. Authentication failed.") ∧
    (authenticateUser asciiLowerCase sampleVerifier 7 { sampleDb with writeFails := true }
        (some "Bearer tokZ")).response
      = some (.msg 401 "Invalid token. Authentication failed.") ∧
    (authenticateUser asciiLowerCase verifierNoClaims 7 sampleDb (some "Bearer tokN")).response
      = some (.msg 401 "Invalid token. Authentication failed.") ∧
    (authenticateUser asciiLowerCase verifierNoClaims 7 sampleDb (some "Bearer tokN")).calls
      = [.verifyIdToken "tokN", .findOne "N"] := by
  decide

/-! Provisioning -/

/-- The outcome of `authenticateUser` for a bearer token that verifies and
whose identity has no record: provisioning and the insert decide. -/
theorem authenticateUser_unseen (toLowerCase : String → String)
    (verifyIdToken : String → Except String DecodedToken)
    (now : Nat) (db : Db) (token : String) (decodedToken : DecodedToken)
    (hverify : verifyIdToken token = .ok decodedToken)
    (hfind : User.findOne db decodedToken.uid = .ok none) :
    authenticateUser toLowerCase verifyIdToken now db (some ("Bearer " ++ token)) =
      match newUser toLowerCase decodedToken now with
      | .error e =>
        authThrown (.other e) db [.verifyIdToken token, .findOne decodedToken.uid]
      | .ok user =>
        match User.insert db user with
        | .error e =>
          authThrown (.other e) db
            [.verifyIdToken token, .findOne decodedToken.uid, .save user.firebaseUid]
        | .ok db1 =>
          authFinish user decodedToken db1
            [.verifyIdToken token, .findOne decodedToken.uid, .save user.firebaseUid] := by
  simp only [authenticateUser, truthy_bearer, Option.getD_some, startsWith_bearer,
    substring_bearer, hverify, hfind, Bool.not_true, Bool.or_self, Bool.false_eq_true,
    if_false]
  cases newUser toLowerCase decodedToken now with
  | error e => rfl
  | ok user => cases User.insert db user <;> rfl

/-- What a successful `newUser` fixes of the document. -/
theorem newUser_fields {toLowerCase : String → String} {decodedToken : DecodedToken}
    {now : Nat} {user : User} (h : newUser toLowerCase decodedToken now = .ok user) :
    user.firebaseUid = decodedToken.uid ∧ user.role = "user" ∧ user.isActive = true ∧
    user.lastLogin = now ∧ user.createdAt = now ∧ user.updatedAt = now := by
  unfold newUser at h
  dsimp only at h
  split at h
  · cases h
  · injection h with h
    rw [← h]
    exact ⟨rfl, rfl, rfl, rfl, rfl, rfl⟩

/-- Setting the two times of a document to the values they have changes
nothing. -/
theorem touch_same (user : User) (now : Nat) (hlast : user.lastLogin = now)
    (hupd : user.updatedAt = now) :
    ({ user with lastLogin := now, updatedAt := now } : User) = user := by
  cases user
  simp only at hlast hupd
  subst hlast
  subst hupd
  rfl

/-- A successful insert passed the validators, found the store writable, and
appended the document. -/
theorem insert_ok {db db1 : Db} {user : User} (h : User.insert db user = .ok db1) :
    user.validate = true ∧ db.writeFails = false ∧
    db1 = { db with users := db.users ++ [user] } := by
  unfold User.insert at h
  split_ifs at h with h1 h2 h3
  injection h with h
  refine ⟨by simpa using h1, by simpa using h2, h.symm⟩

/-- An unseen identity: no stored record carries it. -/
theorem findOne_none {db : Db} {uid : String} (h : User.findOne db uid = .ok none) :
    db.readFails = false ∧ ∀ v ∈ db.users, v.firebaseUid ≠ uid := by
  unfold User.findOne at h
  split_ifs at h with h1
  injection h with h
  refine ⟨by simpa using h1, ?_⟩
  intro v hv
  have := List.find?_eq_none.mp h v hv
  simpa using this

/-- Replacing the records of an identity leaves a list without that identity
as it is. -/
theorem map_replace_absent (users : List User) (u : User)
    (h : ∀ v ∈ users, v.firebaseUid ≠ u.firebaseUid) :
    users.map (fun v => if v.firebaseUid == u.firebaseUid then u else v) = users := by
  induction users with
  | nil => rfl
  | cons a rest ih =>
    have ha : a.firebaseUid ≠ u.firebaseUid := h a (List.mem_cons_self _ _)
    have hrest : ∀ v ∈ rest, v.firebaseUid ≠ u.firebaseUid :=
      fun v hv => h v (List.mem_cons_of_mem _ hv)
    rw [List.map_cons, ih hrest]
    simp [ha]

/-- Replacing the records of an identity no record has leaves the list as it
is. -/
theorem map_replace_uid_absent (users : List User) (uid : String) (u : User)
    (h : ∀ v ∈ users, v.firebaseUid ≠ uid) :
    users.map (fun v => if v.firebaseUid == uid then u else v) = users := by
  induction users with
  | nil => rfl
  | cons a rest ih =>
    have ha : a.firebaseUid ≠ uid := h a (List.mem_cons_self _ _)
    have hrest : ∀ v ∈ rest, v.firebaseUid ≠ uid :=
      fun v hv => h v (List.mem_cons_of_mem _ hv)
    rw [List.map_cons, ih hrest]
    simp [ha]

/-- C13 (counterexample): a verified token of the unseen identity `N` that
carries a name and no email creates no record, binds nothing and does not call
`next`; so does one whose name claim is a no-break space, which the trim
empties, and one whose name claim has 26 code points and a `length` of 52; and
one whose name is padded with blanks creates a record whose display name is
the trimmed name, not the name claim. -/
theorem authenticateUser_provisioning_refused :
    User.findOne sampleDb "N" = .ok none ∧
    (authenticateUser asciiLowerCase verifierNoEmail 7 sampleDb (some "Bearer tokN")).db
      = sampleDb ∧
    (authenticateUser asciiLowerCase verifierNoEmail 7 sampleDb (some "Bearer tokN")).reqUser
      = none ∧
    (authenticateUser asciiLowerCase verifierNoEmail 7 sampleDb (some "Bearer tokN")).nextCalled
      = false ∧
    (authenticateUser asciiLowerCase verifierNbsp 7 sampleDb (some "Bearer tokN")).db
      = sampleDb ∧
    (authenticateUser asciiLowerCase verifierNbsp 7 sampleDb (some "Bearer tokN")).nextCalled
      = false ∧
    (authenticateUser asciiLowerCase verifierAstral 7 sampleDb (some "Bearer tokN")).db
      = sampleDb ∧
    (authenticateUser asciiLowerCase verifierAstral 7 sampleDb (some "Bearer tokN")).nextCalled
      = false ∧
    ((authenticateUser asciiLowerCase verifierPadded 7 sampleDb (some "Bearer tokN")).reqUser.map
        (fun u => u.displayName)) = some "Nina" ∧
    ((authenticateUser asciiLowerCase verifierPadded 7 sampleDb (some "Bearer tokN")).reqUser.map
        (fun u => u.displayName)) ≠ some " Nina " := by
  refine ⟨rfl, by decide, by decide, by decide, by decide, by decide, by decide, by decide,
    by decide, by decide⟩

/-- C13 (amended): for a verified token of an unseen identity whose claims make
a document the schema accepts (a non-empty uid, an email that is non-empty once
trimmed and lower-cased, a display name that once trimmed is non-empty and has
a `length` of at most 50), whose email no record holds, and a store that
accepts the write, `authenticateUser` appends exactly one record, with
`firebaseUid` the uid, role `user`, active, and display name the trimmed name
claim when that is present and non-empty, otherwise the trimmed part of the
email before the first `@`; it binds that record and calls `next`. -/
theorem authenticateUser_provisions (toLowerCase : String → String)
    (verifyIdToken : String → Except String DecodedToken)
    (now : Nat) (db : Db) (token : String) (decodedToken : DecodedToken) (email : String)
    (hverify : verifyIdToken token = .ok decodedToken)
    (hfind : User.findOne db decodedToken.uid = .ok none)
    (huid : decodedToken.uid ≠ "")
    (hemail : decodedToken.email = some email)
    (hmail : toLowerCase (trim email) ≠ "")
    (hname : trim (if truthy decodedToken.name then decodedToken.name.getD ""
                   else splitAtSign0 email) ≠ "")
    (hlen : utf16Length (trim (if truthy decodedToken.name then decodedToken.name.getD ""
                               else splitAtSign0 email)) ≤ 50)
    (hunique : ∀ v ∈ db.users, v.email ≠ toLowerCase (trim email))
    (hwrite : db.writeFails = false) :
    ∃ user : User,
      (authenticateUser toLowerCase verifyIdToken now db (some ("Bearer " ++ token))).db
        = { db with users := db.users ++ [user] } ∧
      user.firebaseUid = decodedToken.uid ∧ user.role = "user" ∧ user.isActive = true ∧
      user.displayName = trim (if truthy decodedToken.name then decodedToken.name.getD ""
                               else splitAtSign0 email) ∧
      user.email = toLowerCase (trim email) ∧ user.lastLogin = now ∧
      (authenticateUser toLowerCase verifyIdToken now db
        (some ("Bearer " ++ token))).reqUser = some user ∧
      (authenticateUser toLowerCase verifyIdToken now db
        (some ("Bearer " ++ token))).nextCalled = true ∧
      (authenticateUser toLowerCase verifyIdToken now db
        (some ("Bearer " ++ token))).response = none := by
  obtain ⟨user, hdef⟩ : ∃ user : User, user =
      { firebaseUid := decodedToken.uid
        email := toLowerCase (trim email)
        displayName := trim (if truthy decodedToken.name then decodedToken.name.getD ""
                             else splitAtSign0 email)
        role := "user"
        isActive := true
        lastLogin := now
        profile := { avatar := none, department := none, phoneNumber := none }
        createdAt := now
        updatedAt := now } := ⟨_, rfl⟩
  have hnew : newUser toLowerCase decodedToken now = .ok user := by
    rw [hdef]
    unfold newUser
    by_cases hn : truthy decodedToken.name = true
    · simp [hn, hemail]
    · simp [hn, hemail]
  have hunseen := (findOne_none hfind).2
  have hval : user.validate = true := by
    rw [hdef]
    simp [User.validate, huid, hmail, hname, hlen, roleEnum]
  have hany : db.users.any (fun v => v.firebaseUid == user.firebaseUid ||
      v.email == user.email) = false := by
    rw [List.any_eq_false]
    intro v hv
    rw [hdef]
    simp [hunseen v hv, hunique v hv]
  have hinsert : User.insert db user = .ok { db with users := db.users ++ [user] } := by
    simp only [User.insert, hval, hwrite, hany, Bool.not_true, Bool.false_eq_true, if_false]
  have hact : user.isActive = true := by rw [hdef]
  have hout : authenticateUser toLowerCase verifyIdToken now db (some ("Bearer " ++ token)) =
      { response := none, nextCalled := true, reqUser := some user,
        firebaseUser := some decodedToken, db := { db with users := db.users ++ [user] },
        calls := [.verifyIdToken token, .findOne decodedToken.uid, .save user.firebaseUid] } := by
    rw [authenticateUser_unseen toLowerCase verifyIdToken now db token decodedToken hverify
      hfind, hnew]
    simp only [hinsert, authFinish, hact, Bool.not_true, Bool.false_eq_true, if_false]
  refine ⟨user, ?_, ?_, ?_, hact, ?_, ?_, ?_, ?_, ?_, ?_⟩
  · rw [hout]
  · rw [hdef]
  · rw [hdef]
  · rw [hdef]
  · rw [hdef]
  · rw [hdef]
  · rw [hout]
  · rw [hout]
  · rw [hout]

/-- Witness of C13: the identity `N` with an email and no name is provisioned
with the display name `Nina.Ng`. -/
theorem authenticateUser_provisions_witness :
    verifierNew "tokN" = .ok { uid := "N", email := some "Nina.Ng@Example.org", name := none } ∧
    User.findOne sampleDb "N" = .ok none ∧
    ∃ user : User,
      (authenticateUser asciiLowerCase verifierNew 7 sampleDb (some ("Bearer " ++ "tokN"))).db
        = { sampleDb with users := sampleDb.users ++ [user] } ∧
      user.firebaseUid = "N" ∧ user.role = "user" ∧ user.isActive = true ∧
      user.displayName = "Nina.Ng" ∧
      (authenticateUser asciiLowerCase verifierNew 7 sampleDb
        (some ("Bearer " ++ "tokN"))).nextCalled = true :=
  have h := authenticateUser_provisions asciiLowerCase verifierNew 7 sampleDb "tokN"
    { uid := "N", email := some "Nina.Ng@Example.org", name := none } "Nina.Ng@Example.org"
    rfl rfl (by decide) rfl (by decide) (by decide) (by decide) (by decide) rfl
  ⟨rfl, rfl, h.choose, h.choose_spec.1, h.choose_spec.2.1, h.choose_spec.2.2.1,
    h.choose_spec.2.2.2.1,
    h.choose_spec.2.2.2.2.1.trans (by decide),
    h.choose_spec.2.2.2.2.2.2.2.2.1⟩

/-- A first sign-in that calls `next` went through `newUser` and a successful
insert. -/
theorem authenticateUser_unseen_pass (toLowerCase : String → String)
    (verifyIdToken : String → Except String DecodedToken)
    (now : Nat) (db : Db) (token : String) (decodedToken : DecodedToken)
    (hverify : verifyIdToken token = .ok decodedToken)
    (hfind : User.findOne db decodedToken.uid = .ok none)
    (hfirst : (authenticateUser toLowerCase verifyIdToken now db
      (some ("Bearer " ++ token))).nextCalled = true) :
    ∃ (user : User) (db1 : Db), newUser toLowerCase decodedToken now = .ok user ∧
      User.insert db user = .ok db1 ∧
      authenticateUser toLowerCase verifyIdToken now db (some ("Bearer " ++ token)) =
        authFinish user decodedToken db1
          [.verifyIdToken token, .findOne decodedToken.uid, .save user.firebaseUid] := by
  have hout := authenticateUser_unseen toLowerCase verifyIdToken now db token decodedToken
    hverify hfind
  cases hnew : newUser toLowerCase decodedToken now with
  | error e =>
    rw [hnew] at hout
    rw [hout] at hfirst
    simp [authThrown] at hfirst
  | ok user =>
    rw [hnew] at hout
    dsimp only at hout
    cases hins : User.insert db user with
    | error e =>
      rw [hins] at hout
      rw [hout] at hfirst
      simp [authThrown] at hfirst
    | ok db1 =>
      rw [hins] at hout
      exact ⟨user, db1, rfl, hins, hout⟩

/-- C14 (counterexample): two runs in sequence with a token that verifies for
the unseen identity `N` but carries no email leave no record of `N`, not one;
and when the claims do provision `N`, the second run changes `updatedAt` of
that record as well as `lastLogin`. -/
theorem authenticateUser_twice_refuted :
    verifierNoEmail "tokN" = .ok { uid := "N", email := none, name := some "Nina" } ∧
    User.findOne sampleDb "N" = .ok none ∧
    ((authenticateUser asciiLowerCase verifierNoEmail 9
        (authenticateUser asciiLowerCase verifierNoEmail 7 sampleDb (some "Bearer tokN")).db
        (some "Bearer tokN")).db.users.countP (fun v => v.firebaseUid == "N")) = 0 ∧
    (((authenticateUser asciiLowerCase verifierNew 7 sampleDb (some "Bearer tokN")).db.users.find?
        (fun v => v.firebaseUid == "N")).map (fun v => (v.lastLogin, v.updatedAt)))
      = some (7, 7) ∧
    (((authenticateUser asciiLowerCase verifierNew 9
        (authenticateUser asciiLowerCase verifierNew 7 sampleDb (some "Bearer tokN")).db
        (some "Bearer tokN")).db.users.find?
        (fun v => v.firebaseUid == "N")).map (fun v => (v.lastLogin, v.updatedAt)))
      = some (9, 9) := by
  refine ⟨rfl, rfl, by decide, by decide, by decide⟩

/-- C14 (amended): when a bearer token verifies for an identity without a
record and the first run of `authenticateUser` provisions it (calls `next`), a
second run with the same token on the store the first one left creates no
record: the first run appended one record of that identity, and after the
second run the users are the same list with only that record's `lastLogin` and
`updatedAt` set to the second clock; exactly one record has the identity, and
the tasks are untouched. -/
theorem authenticateUser_twice (toLowerCase : String → String)
    (verifyIdToken : String → Except String DecodedToken)
    (now1 now2 : Nat) (db : Db) (token : String) (decodedToken : DecodedToken)
    (hverify : verifyIdToken token = .ok decodedToken)
    (hfind : User.findOne db decodedToken.uid = .ok none)
    (hfirst : (authenticateUser toLowerCase verifyIdToken now1 db
      (some ("Bearer " ++ token))).nextCalled = true) :
    ∃ user : User,
      user.firebaseUid = decodedToken.uid ∧
      (authenticateUser toLowerCase verifyIdToken now1 db (some ("Bearer " ++ token))).db.users
        = db.users ++ [user] ∧
      (authenticateUser toLowerCase verifyIdToken now2
          (authenticateUser toLowerCase verifyIdToken now1 db (some ("Bearer " ++ token))).db
          (some ("Bearer " ++ token))).db.users
        = db.users ++ [{ user with lastLogin := now2, updatedAt := now2 }] ∧
      ((authenticateUser toLowerCase verifyIdToken now2
          (authenticateUser toLowerCase verifyIdToken now1 db (some ("Bearer " ++ token))).db
          (some ("Bearer " ++ token))).db.users.countP
        (fun v => v.firebaseUid == decodedToken.uid)) = 1 ∧
      (authenticateUser toLowerCase verifyIdToken now2
          (authenticateUser toLowerCase verifyIdToken now1 db (some ("Bearer " ++ token))).db
          (some ("Bearer " ++ token))).db.tasks = db.tasks ∧
      (authenticateUser toLowerCase verifyIdToken now2
          (authenticateUser toLowerCase verifyIdToken now1 db (some ("Bearer " ++ token))).db
          (some ("Bearer " ++ token))).nextCalled = true := by
  obtain ⟨hread, hunseen⟩ := findOne_none hfind
  obtain ⟨user, db1, hnew, hins, hout⟩ :=
    authenticateUser_unseen_pass toLowerCase verifyIdToken now1 db token decodedToken hverify
      hfind hfirst
  obtain ⟨huid, -, hact, hlast, -, hupd⟩ := newUser_fields hnew
  obtain ⟨hval, hwrite, hdb1⟩ := insert_ok hins
  have hdb : (authenticateUser toLowerCase verifyIdToken now1 db
      (some ("Bearer " ++ token))).db = db1 := by
    rw [hout]
    simp [authFinish, hact]
  rw [hdb]
  have hnone : db.users.find? (fun u => u.firebaseUid == decodedToken.uid) = none := by
    rw [List.find?_eq_none]
    intro v hv
    simpa using hunseen v hv
  have hfound : db1.users.find? (fun u => u.firebaseUid == decodedToken.uid) = some user := by
    rw [hdb1]
    simp only [List.find?_append, hnone]
    simp [huid]
  have hfind2 : User.findOne db1 decodedToken.uid = .ok (some user) := by
    have hr1 : db1.readFails = false := by rw [hdb1]; exact hread
    simp only [User.findOne, hr1, Bool.false_eq_true, if_false, hfound]
  have hmap : db1.users.map (fun v =>
      if v.firebaseUid == decodedToken.uid
      then ({ user with lastLogin := now2, updatedAt := now2 } : User) else v)
      = db.users ++ [{ user with lastLogin := now2, updatedAt := now2 }] := by
    rw [hdb1]
    simp only [List.map_append]
    rw [map_replace_uid_absent db.users decodedToken.uid _ hunseen]
    simp [huid]
  have hw1 : db1.writeFails = false := by rw [hdb1]; exact hwrite
  have hsave : ∃ db2 : Db, User.save now2 db1 { user with lastLogin := now2 } =
      .ok ({ user with lastLogin := now2, updatedAt := now2 }, db2) ∧
      db2.users = db.users ++ [{ user with lastLogin := now2, updatedAt := now2 }] ∧
      db2.tasks = db.tasks := by
    by_cases heq : user.lastLogin = now2
    · have hnow : now1 = now2 := hlast.symm.trans heq
      have hsame : ({ user with lastLogin := now2, updatedAt := now2 } : User) = user :=
        touch_same user now2 heq (hupd.trans hnow)
      have hsame1 : ({ user with lastLogin := now2 } : User) = user := by
        rw [← heq]
      refine ⟨db1, ?_, ?_, ?_⟩
      · rw [hsame, hsame1]
        have hval2 : (!User.validate user) = false := by
          rw [hval]
          rfl
        have hyes : (db1.users.find? (fun v => v.firebaseUid == user.firebaseUid)
            == some user) = true := by
          rw [huid, hfound]
          exact beq_self_eq_true _
        unfold User.save
        rw [if_neg (by rw [hval2]; exact Bool.false_ne_true), if_pos hyes]
      · rw [hsame, hdb1]
      · rw [hdb1]
    · have hne : (db1.users.find? (fun v => v.firebaseUid == decodedToken.uid)
          == some ({ user with lastLogin := now2 } : User)) = false := by
        rw [hfound]
        apply beq_false_of_ne
        intro h
        injection h with h
        exact heq (by rw [h])
      refine ⟨{ db1 with
        users := db.users ++ [{ user with lastLogin := now2, updatedAt := now2 }] }, ?_, rfl, ?_⟩
      · have hval2 : (!User.validate { user with lastLogin := now2 }) = false := by
          rw [validate_lastLogin, hval]
          rfl
        rw [← huid] at hne
        unfold User.save
        rw [if_neg (by rw [hval2]; exact Bool.false_ne_true),
          if_neg (by rw [hne]; exact Bool.false_ne_true),
          if_neg (by rw [hw1]; exact Bool.false_ne_true), ← hmap, ← huid]
      · rw [hdb1]
  obtain ⟨db2, hsave, husers, htasks⟩ := hsave
  have hout2 : authenticateUser toLowerCase verifyIdToken now2 db1
      (some ("Bearer " ++ token)) =
      { response := none, nextCalled := true,
        reqUser := some { user with lastLogin := now2, updatedAt := now2 },
        firebaseUser := some decodedToken, db := db2,
        calls := [.verifyIdToken token, .findOne decodedToken.uid, .save user.firebaseUid] } := by
    rw [authenticateUser_existing toLowerCase verifyIdToken now2 db1 token decodedToken user
      hverify hfind2, hsave]
    simp only [authFinish, hact, Bool.not_true, Bool.false_eq_true, if_false]
  rw [hout2]
  refine ⟨user, huid, ?_, husers, ?_, htasks, rfl⟩
  · rw [hdb1]
  · show List.countP _ db2.users = 1
    rw [husers, List.countP_append]
    have hzero : db.users.countP (fun v => v.firebaseUid == decodedToken.uid) = 0 := by
      rw [List.countP_eq_zero]
      intro v hv
      simpa using hunseen v hv
    rw [hzero]
    simp [huid]

/-- Witness of C14 (amended): the identity `N` signs in twice, at times 7 and
9. -/
theorem authenticateUser_twice_witness :
    User.findOne sampleDb "N" = .ok none ∧
    (authenticateUser asciiLowerCase verifierNew 7 sampleDb
      (some ("Bearer " ++ "tokN"))).nextCalled = true ∧
    ∃ user : User,
      user.firebaseUid = "N" ∧
      (authenticateUser asciiLowerCase verifierNew 9
          (authenticateUser asciiLowerCase verifierNew 7 sampleDb (some ("Bearer " ++ "tokN"))).db
          (some ("Bearer " ++ "tokN"))).db.users
        = sampleDb.users ++ [{ user with lastLogin := 9, updatedAt := 9 }] :=
  have h := authenticateUser_twice asciiLowerCase verifierNew 7 9 sampleDb "tokN"
    { uid := "N", email := some "Nina.Ng@Example.org", name := none } rfl rfl (by decide)
  ⟨rfl, by decide, h.choose, h.choose_spec.1, h.choose_spec.2.2.1⟩

/-! The role gate and the permission gate -/

/-- C15: the gate `authorize` calls `next` exactly when a user is bound and its
role is one of the allowed roles, and then sends nothing; without a bound user
it answers 401, and for a bound user whose role is not allowed it answers 403
without calling `next`.  So `adminOnly` passes exactly the bound users of role
`admin`. -/
theorem authorize_gate (allowedRoles : List String) (reqUser : Option User) :
    ((authorize allowedRoles reqUser).nextCalled = true ↔
      ∃ user, reqUser = some user ∧ user.role ∈ allowedRoles) ∧
    ((authorize allowedRoles reqUser).nextCalled = true →
      (authorize allowedRoles reqUser).response = none) ∧
    (reqUser = none →
      authorize allowedRoles reqUser =
        { response := some (.msg 401 "Authentication required."), nextCalled := false }) ∧
    (∀ user, reqUser = some user → user.role ∉ allowedRoles →
      (authorize allowedRoles reqUser).nextCalled = false ∧
      ∃ r, (authorize allowedRoles reqUser).response = some r ∧ r.status = 403) ∧
    ((adminOnly reqUser).nextCalled = true ↔
      ∃ user, reqUser = some user ∧ user.role = "admin") := by
  have key : ∀ roles : List String, (authorize roles reqUser).nextCalled = true ↔
      ∃ user, reqUser = some user ∧ user.role ∈ roles := by
    intro roles
    cases reqUser with
    | none => simp [authorize]
    | some user =>
      by_cases h : user.role ∈ roles
      · simp [authorize, h]
      · simp [authorize, h]
  refine ⟨key allowedRoles, ?_, ?_, ?_, ?_⟩
  · cases reqUser with
    | none => simp [authorize]
    | some user =>
      by_cases h : user.role ∈ allowedRoles
      · simp [authorize, h]
      · simp [authorize, h]
  · intro h
    rw [h]
    rfl
  · intro user h hnot
    rw [h]
    simp [authorize, hnot, Response.msg]
  · rw [adminOnly, key]
    simp

/-- Witness of C15: the manager is turned away by `adminOnly` with 403, the
admin passes. -/
theorem authorize_gate_witness :
    (adminOnly (some (sampleUser "M" "manager" true))).nextCalled = false ∧
    (∃ r, (adminOnly (some (sampleUser "M" "manager" true))).response = some r ∧
      r.status = 403) ∧
    (adminOnly (some (sampleUser "A" "admin" true))).nextCalled = true :=
  have h := (authorize_gate ["admin"] (some (sampleUser "M" "manager" true))).2.2.2.1
    (sampleUser "M" "manager" true) rfl (by decide)
  ⟨h.1, h.2,
   (authorize_gate ["admin"] (some (sampleUser "A" "admin" true))).2.2.2.2.mpr
     ⟨sampleUser "A" "admin" true, rfl, rfl⟩⟩

/-- A document that passes the validators has one of the three roles. -/
theorem validate_role {user : User} (h : user.validate = true) : user.role ∈ roleEnum := by
  simp only [User.validate, Bool.and_eq_true] at h
  simpa using h.2

/-- None of the three roles is a property name of `Object.prototype`. -/
theorem roleEnum_not_prototype {role : String} (h : role ∈ roleEnum) :
    role ∉ objectPrototypeKeys := by
  simp only [roleEnum, List.mem_cons, List.mem_singleton, List.not_mem_nil, or_false] at h
  rcases h with h | h | h <;> rw [h] <;> decide

/-- Every user `authenticateUser` binds to the request passed the validators,
so its role is one of the three. -/
theorem authenticateUser_binds_valid (toLowerCase : String → String)
    (verifyIdToken : String → Except String DecodedToken)
    (now : Nat) (db : Db) (authorization : Option String) (user : User)
    (h : (authenticateUser toLowerCase verifyIdToken now db authorization).reqUser = some user) :
    user.role ∈ roleEnum := by
  unfold authenticateUser at h
  have hfinish : ∀ (u : User) (d : DecodedToken) (db1 : Db) (cs : List Call),
      (authFinish u d db1 cs).reqUser = some user → u = user := by
    intro u d db1 cs hu
    unfold authFinish at hu
    split_ifs at hu
    injection hu
  split_ifs at h
  dsimp only at h
  split at h
  · cases h
  · split at h
    · cases h
    · split at h
      · cases h
      · split at h
        · cases h
        · rename_i u _ db1 hins
          have hu := hfinish _ _ _ _ h
          rw [← hu]
          exact validate_role (insert_ok hins).1
    · split at h
      · cases h
      · rename_i saved db1 hsave
        have hu := hfinish _ _ _ _ h
        rw [← hu]
        exact validate_role (save_ok_fields hsave).2.2.2

/-- For a role that is not a property name of `Object.prototype`, the derived
permissions are an array. -/
theorem permissions_array_of_not_prototype (user : User)
    (h : user.role ∉ objectPrototypeKeys) : ∃ perms, user.permissions = .array perms := by
  have hc : objectPrototypeKeys.contains user.role = false := by simpa using h
  simp only [User.permissions, rolePermissions, hc, Bool.false_eq_true, if_false]
  split_ifs <;> exact ⟨_, rfl⟩

/-- The gate on a bound user whose permissions are an array. -/
theorem requirePermission_array (permission : String) (user : User) (perms : List String)
    (h : user.permissions = .array perms) :
    requirePermission permission (some user) =
      if perms.contains permission then .ok { response := none, nextCalled := true }
      else .ok { response := some (.msg 403
                   ("Access denied. Required permission: " ++ permission)),
                 nextCalled := false } := by
  simp only [requirePermission, User.hasPermission, h]
  cases perms.contains permission <;> rfl

/-- The gate on a bound user whose permissions are not an array throws. -/
theorem requirePermission_inherited (permission : String) (user : User) (name : String)
    (h : user.permissions = .inherited name) :
    requirePermission permission (some user) =
      .error "TypeError: this.permissions.includes is not a function" := by
  simp only [requirePermission, User.hasPermission, h]

/-- C16: the gate `requirePermission` calls `next` exactly when a user is bound
and the permission is a member of the permissions derived from its role;
without a bound user it answers 401; for a bound user without the permission
it answers 403, the role being any string that is not a property name of
`Object.prototype`.  Every user `authenticateUser` binds has such a role, so
behind that middleware the gate always answers or calls `next`. -/
theorem requirePermission_gate (permission : String) (reqUser : Option User) :
    ((∃ out, requirePermission permission reqUser = .ok out ∧ out.nextCalled = true) ↔
      ∃ user perms, reqUser = some user ∧ user.permissions = .array perms ∧
        permission ∈ perms) ∧
    (reqUser = none →
      requirePermission permission reqUser =
        .ok { response := some (.msg 401 "Authentication required."), nextCalled := false }) ∧
    (∀ user, reqUser = some user → user.role ∉ objectPrototypeKeys →
      (¬∃ perms, user.permissions = .array perms ∧ permission ∈ perms) →
      requirePermission permission reqUser =
        .ok { response := some (.msg 403
                ("Access denied. Required permission: " ++ permission)),
              nextCalled := false }) ∧
    (∀ (toLowerCase : String → String) (verifyIdToken : String → Except String DecodedToken)
        (now : Nat) (db : Db) (authorization : Option String),
      ∃ out, requirePermission permission
        (authenticateUser toLowerCase verifyIdToken now db authorization).reqUser = .ok out) := by
  refine ⟨?_, ?_, ?_, ?_⟩
  · cases reqUser with
    | none => simp [requirePermission]
    | some user =>
      cases hp : user.permissions with
      | array perms =>
        rw [requirePermission_array permission user perms hp]
        by_cases hm : permission ∈ perms
        · simp [hm, hp]
        · simp [hm, hp]
      | inherited name =>
        rw [requirePermission_inherited permission user name hp]
        simp [hp]
  · intro h
    rw [h]
    rfl
  · intro user h hrole hnot
    obtain ⟨perms, hp⟩ := permissions_array_of_not_prototype user hrole
    have hm : perms.contains permission = false := by
      have : permission ∉ perms := fun hin => hnot ⟨perms, hp, hin⟩
      simpa using this
    rw [h, requirePermission_array permission user perms hp, hm]
    rfl
  · intro toLowerCase verifyIdToken now db authorization
    cases hu : (authenticateUser toLowerCase verifyIdToken now db authorization).reqUser with
    | none => exact ⟨_, rfl⟩
    | some user =>
      have hrole := roleEnum_not_prototype
        (authenticateUser_binds_valid toLowerCase verifyIdToken now db authorization user hu)
      obtain ⟨perms, hp⟩ := permissions_array_of_not_prototype user hrole
      rw [requirePermission_array permission user perms hp]
      split_ifs <;> exact ⟨_, rfl⟩

/-- Witness of C16: a user of role `user` may create tasks and is refused
`manage:users` with 403. -/
theorem requirePermission_gate_witness :
    (∃ out, requirePermission "create:tasks" (some (sampleUser "U1" "user" true)) = .ok out ∧
      out.nextCalled = true) ∧
    requirePermission "manage:users" (some (sampleUser "U1" "user" true)) =
      .ok { response := some (.msg 403 ("Access denied. Required permission: " ++
              "manage:users")),
            nextCalled := false } :=
  ⟨(requirePermission_gate "create:tasks" (some (sampleUser "U1" "user" true))).1.mpr
     ⟨sampleUser "U1" "user" true, ["read:own-tasks", "create:tasks"], rfl, by decide,
       by decide⟩,
   (requirePermission_gate "manage:users" (some (sampleUser "U1" "user" true))).2.2.1
     (sampleUser "U1" "user" true) rfl (by decide)
     (by
       rintro ⟨perms, hp, hin⟩
       have h2 : (sampleUser "U1" "user" true).permissions
           = .array ["read:own-tasks", "create:tasks"] := by decide
       rw [h2] at hp
       injection hp with hp
       rw [← hp] at hin
       exact absurd hin (by decide))⟩

/-! Updates of a task -/

/-- The creator after `Object.assign`: the body's `createdBy` when it has one. -/
theorem assign_createdBy (task : Task) (updates : TaskUpdates) :
    (assign task updates).createdBy = updates.createdBy.getD task.createdBy := rfl

/-- C17 (failing input): the manager `M`, who may update but not delete the
task `U1` created, sends a body with `createdBy: M`; `updateTask` answers 200,
the stored task now has `M` as creator, and `deleteTask` by `M`, refused with
403 before, now succeeds. -/
theorem updateTask_overwrites_createdBy :
    Task.findById sampleDb "t1" = .ok (some taskOfU1) ∧
    taskOfU1.createdBy = "U1" ∧
    (updateTask sampleDb (sampleUser "M" "manager" true) "t1" updatesCreatedByM).1.status
      = 200 ∧
    Task.findById (updateTask sampleDb (sampleUser "M" "manager" true) "t1"
        updatesCreatedByM).2 "t1"
      = .ok (some { taskOfU1 with createdBy := "M" }) ∧
    (deleteTask sampleDb (sampleUser "M" "manager" true) "t1").1.status = 403 ∧
    (deleteTask (updateTask sampleDb (sampleUser "M" "manager" true) "t1"
        updatesCreatedByM).2 (sampleUser "M" "manager" true) "t1").1.status = 200 := by
  refine ⟨rfl, rfl, by decide, rfl, by decide, by decide⟩

/-- When the body names an assignee that is a non-empty string, differs from
the task's and matches no user record, a permitted `updateTask` answers 400 and
returns the store unchanged. -/
theorem updateTask_unknown_assignee (db : Db) (user : User) (id : String) (task : Task)
    (updates : TaskUpdates) (a : String)
    (hfind : Task.findById db id = .ok (some task))
    (hcan : canUpdate user task = true)
    (ha : updates.assignedTo = some a) (hne : a ≠ "") (hdiff : a ≠ task.assignedTo)
    (hnone : User.findOne db a = .ok none) :
    updateTask db user id updates = (.msg 400 "Assigned user not found", db) := by
  simp [updateTask, hfind, hcan, ha, hne, hdiff, hnone, Except.map]

/-- C18 (failing input): `U1` sends `assignedTo: ''` for its task; the empty
string differs from the task's assignee and matches no user record, yet
`updateTask` answers 200 and the stored task has the empty assignee. -/
theorem updateTask_empty_assignee :
    Task.findById sampleDb "t1" = .ok (some taskOfU1) ∧
    taskOfU1.assignedTo ≠ "" ∧
    User.findOne sampleDb "" = .ok none ∧
    (updateTask sampleDb (sampleUser "U1" "user" true) "t1" (updatesAssignedTo "")).1.status
      = 200 ∧
    Task.findById (updateTask sampleDb (sampleUser "U1" "user" true) "t1"
        (updatesAssignedTo "")).2 "t1"
      = .ok (some { taskOfU1 with assignedTo := "" }) ∧
    updateTask sampleDb (sampleUser "U1" "user" true) "t1" (updatesAssignedTo "ghost")
      = (.msg 400 "Assigned user not found", sampleDb) := by
  refine ⟨rfl, by decide, rfl, by decide, rfl, by decide⟩

/-! Listing and statistics -/

/-- The filter `getTasks` builds always asks for `isArchived: false`. -/
theorem getTasksFilter_isArchived (user : User) (query : TaskQuery) :
    (getTasksFilter user query).isArchived = false := by
  simp only [getTasksFilter]
  split_ifs <;> (try split) <;> rfl

/-- The filter `getTasks` builds for a requester who is not of role `user`,
from a query without status, priority, assignee and search term. -/
theorem getTasksFilter_plain (user : User) (query : TaskQuery) (hrole : user.role ≠ "user")
    (hstatus : truthy query.status = false) (hpriority : truthy query.priority = false)
    (hassigned : truthy query.assignedTo = false) (hsearch : truthy query.search = false) :
    getTasksFilter user query =
      { isArchived := false, or := none, status := none, priority := none,
        assignedTo := none } := by
  simp [getTasksFilter, hrole, hstatus, hpriority, hassigned, hsearch]

/-- C19: for a requester of role admin or manager and a query without status,
priority, assignee and search term, the filter of `getTasks` selects a task
exactly when it is not archived; and for every requester and every query the
filter selects no archived task. -/
theorem getTasksFilter_archived (rx : String → String → Bool) (user : User)
    (query : TaskQuery) (t : Task) :
    ((user.role = "admin" ∨ user.role = "manager") →
      truthy query.status = false → truthy query.priority = false →
      truthy query.assignedTo = false → truthy query.search = false →
      ((getTasksFilter user query).selects rx t = true ↔ t.isArchived = false)) ∧
    (t.isArchived = true → (getTasksFilter user query).selects rx t = false) := by
  constructor
  · intro hrole hstatus hpriority hassigned hsearch
    have hne : user.role ≠ "user" := by
      rcases hrole with h | h <;> rw [h] <;> decide
    rw [getTasksFilter_plain user query hne hstatus hpriority hassigned hsearch]
    simp [Filter.selects]
  · intro harch
    simp [Filter.selects, getTasksFilter_isArchived, harch]

/-- Witness of C19: the manager's plain list selects the task of `U1` and not
the archived one. -/
theorem getTasksFilter_archived_witness :
    (getTasksFilter (sampleUser "M" "manager" true) emptyQuery).selects (fun _ _ => false)
      taskOfU1 = true ∧
    (getTasksFilter (sampleUser "M" "manager" true) emptyQuery).selects (fun _ _ => false)
      archivedTask = false :=
  ⟨((getTasksFilter_archived (fun _ _ => false) (sampleUser "M" "manager" true) emptyQuery
      taskOfU1).1 (Or.inr rfl) rfl rfl rfl rfl).mpr rfl,
   (getTasksFilter_archived (fun _ _ => false) (sampleUser "M" "manager" true) emptyQuery
      archivedTask).2 rfl⟩

/-- What the `matchFilter` of `getTaskStats` selects for a requester of role
`user`: the tasks that are not archived and that the requester is assigned to
or created. -/
theorem getTaskStatsFilter_user (rx : String → String → Bool) (user : User) (t : Task)
    (hrole : user.role = "user") :
    (getTaskStatsFilter user).selects rx t =
      (!t.isArchived && (t.assignedTo == user.firebaseUid || t.createdBy == user.firebaseUid)) := by
  simp [getTaskStatsFilter, hrole, Filter.selects, Clause.holds]

/-- A task the requester neither created nor is assigned to is not matched. -/
theorem getTaskStatsFilter_foreign (rx : String → String → Bool) (user : User) (t : Task)
    (hrole : user.role = "user") (hcreated : t.createdBy ≠ user.firebaseUid)
    (hassigned : t.assignedTo ≠ user.firebaseUid) :
    (getTaskStatsFilter user).selects rx t = false := by
  rw [getTaskStatsFilter_user rx user t hrole]
  simp [hcreated, hassigned]

/-- C20: for a requester of role `user`, `getTaskStats` counts over the tasks
that are not archived and that the requester created or is assigned to, and
over nothing else: a store that differs by one more task the requester neither
created nor is assigned to (added, or removed), or by such a task replaced by
another such task (changed), gives the same answer. -/
theorem getTaskStats_user_scope (rx : String → String → Bool) (now : Nat) (db : Db)
    (user : User) (before after : List Task) (t t2 : Task)
    (hrole : user.role = "user") (htasks : db.tasks = before ++ after)
    (hcreated : t.createdBy ≠ user.firebaseUid) (hassigned : t.assignedTo ≠ user.firebaseUid)
    (hcreated2 : t2.createdBy ≠ user.firebaseUid)
    (hassigned2 : t2.assignedTo ≠ user.firebaseUid) :
    (db.readFails = false →
      getTaskStats rx now db user =
        { status := 200, message := none, error := none,
          stats := some (groupStats now (db.tasks.filter (fun s =>
            !s.isArchived &&
              (s.assignedTo == user.firebaseUid || s.createdBy == user.firebaseUid)))) }) ∧
    getTaskStats rx now { db with tasks := before ++ t :: after } user
      = getTaskStats rx now db user ∧
    getTaskStats rx now { db with tasks := before ++ t2 :: after } user
      = getTaskStats rx now { db with tasks := before ++ t :: after } user := by
  have hsel : (getTaskStatsFilter user).selects rx =
      fun s => (!s.isArchived &&
        (s.assignedTo == user.firebaseUid || s.createdBy == user.firebaseUid)) := by
    funext s
    exact getTaskStatsFilter_user rx user s hrole
  have hadd : ∀ x : Task, x.createdBy ≠ user.firebaseUid → x.assignedTo ≠ user.firebaseUid →
      getTaskStats rx now { db with tasks := before ++ x :: after } user
        = getTaskStats rx now db user := by
    intro x hc ha
    have hx := getTaskStatsFilter_foreign rx user x hrole hc ha
    simp only [getTaskStats, htasks, List.filter_append, List.filter_cons, hx,
      Bool.false_eq_true, if_false]
  refine ⟨?_, hadd t hcreated hassigned, ?_⟩
  · intro hread
    simp only [getTaskStats, hread, Bool.false_eq_true, if_false, hsel]
  · rw [hadd t hcreated hassigned, hadd t2 hcreated2 hassigned2]

/-- Witness of C20: the statistics of `U1` do not see the task `M` created for
`A`. -/
theorem getTaskStats_user_scope_witness :
    getTaskStats (fun _ _ => false) 5 { sampleDb with tasks := [] ++ taskOfM :: [taskOfU1] }
        (sampleUser "U1" "user" true)
      = getTaskStats (fun _ _ => false) 5 sampleDb (sampleUser "U1" "user" true) ∧
    (getTaskStats (fun _ _ => false) 5 sampleDb (sampleUser "U1" "user" true)).stats
      = some { total := 1, pending := 1, inProgress := 0, completed := 0, highPriority := 0,
               overdue := 0 } :=
  ⟨(getTaskStats_user_scope (fun _ _ => false) 5 sampleDb (sampleUser "U1" "user" true)
      [] [taskOfU1] taskOfM taskOfM rfl rfl (by decide) (by decide) (by decide)
      (by decide)).2.1,
   by decide⟩

/-! User administration -/

/-- Looking an identity up after the records of `uid` were replaced by `u1`,
a record of that identity: the replaced record is found for `uid`, and every
other identity finds what it found before. -/
theorem find?_map_replace (users : List User) (uid : String) (u1 : User)
    (h1 : u1.firebaseUid = uid) (uid2 : String) :
    (users.map (fun v => if v.firebaseUid == uid then u1 else v)).find?
        (fun v => v.firebaseUid == uid2)
      = if uid2 = uid then (users.find? (fun v => v.firebaseUid == uid)).map (fun _ => u1)
        else users.find? (fun v => v.firebaseUid == uid2) := by
  induction users with
  | nil => simp
  | cons a rest ih =>
    simp only [List.map_cons, List.find?_cons, ih]
    by_cases ha : a.firebaseUid = uid
    · have hb1 : (a.firebaseUid == uid) = true := by simpa using ha
      by_cases h2 : uid2 = uid
      · subst h2
        have hb2 : (u1.firebaseUid == uid2) = true := by simp [h1]
        simp only [hb1, hb2, if_true, Option.map_some']
      · have hb2 : (u1.firebaseUid == uid2) = false := by
          simp [h1]; exact fun h => h2 h.symm
        have hb3 : (a.firebaseUid == uid2) = false := by
          simp [ha]; exact fun h => h2 h.symm
        simp only [hb1, hb2, hb3, if_true, h2, if_false]
    · have hb1 : (a.firebaseUid == uid) = false := by simpa using ha
      by_cases h3 : a.firebaseUid = uid2
      · have hb3 : (a.firebaseUid == uid2) = true := by simpa using h3
        have h2 : ¬ uid2 = uid := fun h => ha (h3.trans h)
        simp only [hb1, hb3, h2, if_false, Bool.false_eq_true]
      · have hb3 : (a.firebaseUid == uid2) = false := by simpa using h3
        by_cases h2 : uid2 = uid
        · subst h2
          simp only [hb1, if_true, if_false, Bool.false_eq_true]
        · simp only [hb1, hb3, h2, if_false, Bool.false_eq_true]

/-- C21: `updateUserRole` answers 400 and returns the store unchanged whenever
the body's role is missing or is not one of `user`, `manager`, `admin`; for one
of the three, a target other than the requester that has a record, and a store
that accepts the write, it answers 200, the target's record has the given role,
the time of the update in `updatedAt`, and is otherwise as before, and every
other identity finds the record it found before. -/
theorem updateUserRole_validation (now : Nat) (db : Db) (user : User) (userId : String)
    (role : Option String) :
    ((∀ r, role = some r → r ∉ ["user", "manager", "admin"]) →
      updateUserRole now db user userId role =
        (.msg 400 "Invalid role. Must be user, manager, or admin", db)) ∧
    (∀ (r : String) (target : User), role = some r → r ∈ ["user", "manager", "admin"] →
      userId ≠ user.firebaseUid → db.writeFails = false →
      db.users.find? (fun u => u.firebaseUid == userId) = some target →
      (updateUserRole now db user userId role).1.status = 200 ∧
      (updateUserRole now db user userId role).2.users =
        db.users.map (fun v =>
          if v.firebaseUid == userId then { target with role := r, updatedAt := now } else v) ∧
      (updateUserRole now db user userId role).2.users.find? (fun u => u.firebaseUid == userId)
        = some { target with role := r, updatedAt := now } ∧
      (updateUserRole now db user userId role).2.tasks = db.tasks ∧
      ∀ uid2, uid2 ≠ userId →
        (updateUserRole now db user userId role).2.users.find? (fun u => u.firebaseUid == uid2)
          = db.users.find? (fun u => u.firebaseUid == uid2)) := by
  constructor
  · intro h
    cases role with
    | none => rfl
    | some r =>
      have hr : ["user", "manager", "admin"].contains r = false := by
        simpa using h r rfl
      simp only [updateUserRole, hr, Bool.not_false, if_true]
  · intro r target hrole hr hne hwrite hfind
    have hrc : ["user", "manager", "admin"].contains r = true := by simpa using hr
    have hre : roleEnum.contains r = true := hrc
    have hself : (userId == user.firebaseUid) = false := by simpa using hne
    have htarget : target.firebaseUid = userId := by
      have := List.find?_some hfind
      simpa using this
    have hout : updateUserRole now db user userId role =
        ({ status := 200, message := some "User role updated successfully", task := none,
           user := some { target with role := r, updatedAt := now }, error := none },
         { db with
           users := db.users.map (fun v =>
             if v.firebaseUid == userId then { target with role := r, updatedAt := now }
             else v) }) := by
      simp only [hrole, updateUserRole, hrc, hself, User.findOneAndUpdateRole, hwrite, hre,
        hfind, Bool.not_true, Bool.false_eq_true, if_false]
    rw [hout]
    refine ⟨rfl, rfl, ?_, rfl, ?_⟩
    · show (db.users.map _).find? _ = _
      rw [find?_map_replace db.users userId { target with role := r, updatedAt := now } htarget
        userId]
      simp [hfind]
    · intro uid2 h2
      show (db.users.map _).find? _ = _
      rw [find?_map_replace db.users userId { target with role := r, updatedAt := now } htarget
        uid2]
      simp [h2]

/-- Witness of C21: the admin makes `U1` a manager at time 7. -/
theorem updateUserRole_validation_witness :
    (updateUserRole 7 sampleDb (sampleUser "A" "admin" true) "U1" (some "manager")).1.status
      = 200 ∧
    (updateUserRole 7 sampleDb (sampleUser "A" "admin" true) "U1" (some "manager")).2.users.find?
        (fun u => u.firebaseUid == "U1")
      = some { sampleUser "U1" "user" true with role := "manager", updatedAt := 7 } ∧
    updateUserRole 7 sampleDb (sampleUser "A" "admin" true) "U1" (some "root") =
      (.msg 400 "Invalid role. Must be user, manager, or admin", sampleDb) :=
  have h := (updateUserRole_validation 7 sampleDb (sampleUser "A" "admin" true) "U1"
    (some "manager")).2 "manager" (sampleUser "U1" "user" true) rfl (by decide) (by decide)
    rfl rfl
  ⟨h.1, h.2.2.1,
   (updateUserRole_validation 7 sampleDb (sampleUser "A" "admin" true) "U1" (some "root")).1
     (fun r hr => by
       injection hr with hr
       rw [← hr]
       decide)⟩

/-- A key of the allow-list is `displayName` or `profile`. -/
theorem allowed_key {key : String} (h : allowedUpdates.contains key = true) :
    key = "displayName" ∨ key = "profile" := by
  simpa [allowedUpdates] using h

/-- Setting a key of the allow-list leaves identity, email, role, active flag
and login time of the document as they are. -/
theorem setUpdate_allowed (toLowerCase : String → String) (u : User) (kv : String × BodyValue)
    (h : allowedUpdates.contains kv.1 = true) :
    (setUpdate toLowerCase u kv).firebaseUid = u.firebaseUid ∧
    (setUpdate toLowerCase u kv).email = u.email ∧
    (setUpdate toLowerCase u kv).role = u.role ∧
    (setUpdate toLowerCase u kv).isActive = u.isActive ∧
    (setUpdate toLowerCase u kv).lastLogin = u.lastLogin ∧
    (setUpdate toLowerCase u kv).createdAt = u.createdAt := by
  rcases allowed_key h with hk | hk
  · simp only [setUpdate, hk, beq_self_eq_true, if_true]
    cases castString kv.2 <;> exact ⟨rfl, rfl, rfl, rfl, rfl, rfl⟩
  · have h1 : ("profile" == "displayName") = false := by decide
    have h2 : ("profile" == "email") = false := by decide
    have h3 : ("profile" == "firebaseUid") = false := by decide
    have h4 : ("profile" == "role") = false := by decide
    have h5 : ("profile" == "isActive") = false := by decide
    simp only [setUpdate, hk, h1, h2, h3, h4, h5, beq_self_eq_true, if_true, if_false,
      Bool.false_eq_true]
    cases kv.2 <;> exact ⟨rfl, rfl, rfl, rfl, rfl, rfl⟩

/-- Setting keys of the allow-list one after the other leaves identity, email,
role, active flag, login time and creation time as they are. -/
theorem foldl_setUpdate_allowed (toLowerCase : String → String)
    (updates : List (String × BodyValue)) (u : User)
    (h : ∀ kv ∈ updates, allowedUpdates.contains kv.1 = true) :
    (updates.foldl (setUpdate toLowerCase) u).firebaseUid = u.firebaseUid ∧
    (updates.foldl (setUpdate toLowerCase) u).email = u.email ∧
    (updates.foldl (setUpdate toLowerCase) u).role = u.role ∧
    (updates.foldl (setUpdate toLowerCase) u).isActive = u.isActive ∧
    (updates.foldl (setUpdate toLowerCase) u).lastLogin = u.lastLogin ∧
    (updates.foldl (setUpdate toLowerCase) u).createdAt = u.createdAt := by
  induction updates generalizing u with
  | nil => exact ⟨rfl, rfl, rfl, rfl, rfl, rfl⟩
  | cons kv rest ih =>
    have hkv := setUpdate_allowed toLowerCase u kv (h kv (List.mem_cons_self _ _))
    have hrest := ih (setUpdate toLowerCase u kv) (fun x hx => h x (List.mem_cons_of_mem _ hx))
    simp only [List.foldl_cons]
    exact ⟨hrest.1.trans hkv.1, hrest.2.1.trans hkv.2.1, hrest.2.2.1.trans hkv.2.2.1,
      hrest.2.2.2.1.trans hkv.2.2.2.1, hrest.2.2.2.2.1.trans hkv.2.2.2.2.1,
      hrest.2.2.2.2.2.trans hkv.2.2.2.2.2⟩

/-- Setting a key other than `displayName` leaves the display name, and setting
a key other than `profile` leaves the profile. -/
theorem setUpdate_other (toLowerCase : String → String) (u : User) (kv : String × BodyValue) :
    (kv.1 ≠ "displayName" → (setUpdate toLowerCase u kv).displayName = u.displayName) ∧
    (kv.1 ≠ "profile" → (setUpdate toLowerCase u kv).profile = u.profile) := by
  constructor
  · intro hk
    have hb : (kv.1 == "displayName") = false := by simpa using hk
    simp only [setUpdate, hb, Bool.false_eq_true, if_false]
    split_ifs <;> (try split) <;> rfl
  · intro hk
    have hb : (kv.1 == "profile") = false := by simpa using hk
    simp only [setUpdate, hb, Bool.false_eq_true, if_false]
    split_ifs <;> (try split) <;> rfl

/-- Setting keys none of which is `displayName` (or `profile`) leaves the
display name (or the profile). -/
theorem foldl_setUpdate_other (toLowerCase : String → String)
    (updates : List (String × BodyValue)) (u : User) :
    ((∀ kv ∈ updates, kv.1 ≠ "displayName") →
      (updates.foldl (setUpdate toLowerCase) u).displayName = u.displayName) ∧
    ((∀ kv ∈ updates, kv.1 ≠ "profile") →
      (updates.foldl (setUpdate toLowerCase) u).profile = u.profile) := by
  induction updates generalizing u with
  | nil => exact ⟨fun _ => rfl, fun _ => rfl⟩
  | cons kv rest ih =>
    have hkv := setUpdate_other toLowerCase u kv
    have hrest := ih (setUpdate toLowerCase u kv)
    simp only [List.foldl_cons]
    constructor
    · intro h
      exact (hrest.1 (fun x hx => h x (List.mem_cons_of_mem _ hx))).trans
        (hkv.1 (h kv (List.mem_cons_self _ _)))
    · intro h
      exact (hrest.2 (fun x hx => h x (List.mem_cons_of_mem _ hx))).trans
        (hkv.2 (h kv (List.mem_cons_self _ _)))

/-- What `updateProfile` does to the store: nothing, or the record of the
requester is replaced by that record with the allowed keys of the body set and
`updatedAt` the clock. -/
theorem updateProfile_store (toLowerCase : String → String) (now : Nat) (db : Db) (user : User)
    (body : List (String × BodyValue)) :
    (updateProfile toLowerCase now db user body).2 = db ∨
    ∃ u, db.users.find? (fun v => v.firebaseUid == user.firebaseUid) = some u ∧
      (updateProfile toLowerCase now db user body).2 =
        { db with
          users := db.users.map (fun v =>
            if v.firebaseUid == user.firebaseUid then
              { (body.filter (fun kv => allowedUpdates.contains kv.1)).foldl
                  (setUpdate toLowerCase) u with updatedAt := now }
            else v) } := by
  unfold updateProfile
  dsimp only
  split_ifs
  · exact Or.inl rfl
  · unfold User.findOneAndUpdate
    split_ifs
    · exact Or.inl rfl
    · exact Or.inl rfl
    · cases hfind : db.users.find? (fun v => v.firebaseUid == user.firebaseUid) with
      | none => exact Or.inl rfl
      | some u => exact Or.inr ⟨u, rfl, rfl⟩

/-! The role invariant -/

/-- The invariant, record by record. -/
theorem rolesInEnum_iff (db : Db) :
    rolesInEnum db = true ↔ ∀ v ∈ db.users, v.role ∈ roleEnum := by
  simp [rolesInEnum]

/-- Replacing records by a record with a role of the enum keeps the invariant. -/
theorem rolesInEnum_replace (db : Db) (u1 : User) (c : User → Bool)
    (h : rolesInEnum db = true) (h1 : u1.role ∈ roleEnum) :
    rolesInEnum { db with users := db.users.map (fun v => if c v then u1 else v) } = true := by
  rw [rolesInEnum_iff] at h ⊢
  intro v hv
  obtain ⟨w, hw, hwv⟩ := List.mem_map.mp hv
  by_cases hc : c w = true
  · simp only [hc, if_true] at hwv
    rw [← hwv]
    exact h1
  · simp only [hc, if_false] at hwv
    rw [← hwv]
    exact h w hw

/-- Appending a record with a role of the enum keeps the invariant. -/
theorem rolesInEnum_append (db : Db) (u1 : User) (h : rolesInEnum db = true)
    (h1 : u1.role ∈ roleEnum) :
    rolesInEnum { db with users := db.users ++ [u1] } = true := by
  rw [rolesInEnum_iff] at h ⊢
  intro v hv
  rcases List.mem_append.mp hv with hv | hv
  · exact h v hv
  · rw [List.mem_singleton.mp hv]
    exact h1

/-- Removing records keeps the invariant. -/
theorem rolesInEnum_filter (db : Db) (c : User → Bool) (h : rolesInEnum db = true) :
    rolesInEnum { db with users := db.users.filter c } = true := by
  rw [rolesInEnum_iff] at h ⊢
  intro v hv
  exact h v (List.mem_filter.mp hv).1

/-- A successful save keeps the role invariant of the store. -/
theorem save_rolesInEnum {now : Nat} {db db1 : Db} {user saved : User}
    (h : User.save now db user = .ok (saved, db1)) (hdb : rolesInEnum db = true) :
    rolesInEnum db1 = true := by
  obtain ⟨hval, hcase⟩ := save_ok_cases h
  rcases hcase with ⟨-, hd, -⟩ | ⟨-, -, hd⟩
  · rw [hd]
    exact hdb
  · rw [hd]
    exact rolesInEnum_replace db _ _ hdb (validate_role hval)

/-- The store `authenticateUser` leaves satisfies the role invariant when the
store it was given does. -/
theorem authenticateUser_rolesInEnum (toLowerCase : String → String)
    (verifyIdToken : String → Except String DecodedToken)
    (now : Nat) (db : Db) (authorization : Option String) (h : rolesInEnum db = true) :
    rolesInEnum (authenticateUser toLowerCase verifyIdToken now db authorization).db = true := by
  have hfinish : ∀ (u : User) (d : DecodedToken) (db1 : Db) (cs : List Call),
      (authFinish u d db1 cs).db = db1 := by
    intro u d db1 cs
    unfold authFinish
    split_ifs <;> rfl
  unfold authenticateUser
  split_ifs
  · exact h
  · dsimp only
    split
    · exact h
    · split
      · exact h
      · split
        · exact h
        · split
          · exact h
          · rename_i u _ db1 hins
            rw [hfinish]
            obtain ⟨hval, -, hdb1⟩ := insert_ok hins
            rw [hdb1]
            exact rolesInEnum_append db _ h (validate_role hval)
      · split
        · exact h
        · rename_i saved db1 hsave
          rw [hfinish]
          exact save_rolesInEnum hsave h

/-- C22: when every user record of the store has one of the three roles, the
same holds of the store that `authenticateUser`, `updateProfile`,
`updateUserRole`, `toggleUserStatus` and `deleteUser` each leave, for every
request. -/
theorem roles_stay_in_enum (toLowerCase : String → String)
    (verifyIdToken : String → Except String DecodedToken) (now : Nat)
    (db : Db) (authorization : Option String) (user : User) (userId : String)
    (role : Option String) (body : List (String × BodyValue))
    (h : rolesInEnum db = true) :
    rolesInEnum (authenticateUser toLowerCase verifyIdToken now db authorization).db = true ∧
    rolesInEnum (updateProfile toLowerCase now db user body).2 = true ∧
    rolesInEnum (updateUserRole now db user userId role).2 = true ∧
    rolesInEnum (toggleUserStatus now db user userId).2 = true ∧
    rolesInEnum (deleteUser db user userId).2 = true := by
  have hmem := (rolesInEnum_iff db).mp h
  refine ⟨authenticateUser_rolesInEnum toLowerCase verifyIdToken now db authorization h,
    ?_, ?_, ?_, ?_⟩
  · rcases updateProfile_store toLowerCase now db user body with hdb | ⟨u, hfind, hdb⟩
    · rw [hdb]
      exact h
    · rw [hdb]
      apply rolesInEnum_replace db _ _ h
      have hkeep := (foldl_setUpdate_allowed toLowerCase
        (body.filter (fun kv => allowedUpdates.contains kv.1)) u
        (fun kv hkv => (List.mem_filter.mp hkv).2)).2.2.1
      show ((body.filter (fun kv => allowedUpdates.contains kv.1)).foldl
        (setUpdate toLowerCase) u).role ∈ roleEnum
      rw [hkeep]
      exact hmem u (List.mem_of_find?_eq_some hfind)
  · unfold updateUserRole
    split
    · exact h
    · rename_i r
      split_ifs with hr hself
      · exact h
      · exact h
      · unfold User.findOneAndUpdateRole
        split_ifs with hw hre
        · exact h
        · exact h
        · cases hfind : db.users.find? (fun u => u.firebaseUid == userId) with
          | none => exact h
          | some u =>
            apply rolesInEnum_replace db _ _ h
            simpa using hre
  · unfold toggleUserStatus
    split_ifs
    · exact h
    · cases hfind : User.findOne db userId with
      | error e => exact h
      | ok found =>
        cases found with
        | none => exact h
        | some u =>
          dsimp only
          cases hsave : User.save now db { u with isActive := !u.isActive } with
          | error e => exact h
          | ok r =>
            obtain ⟨saved, db1⟩ := r
            dsimp only
            exact save_rolesInEnum hsave h
  · unfold deleteUser
    split_ifs
    · exact h
    · unfold User.findOneAndDelete
      split_ifs
      · exact h
      · cases hfind : db.users.find? (fun u => u.firebaseUid == userId) with
        | none => exact h
        | some u => exact rolesInEnum_filter db _ h

/-- Witness of C22: the sample store satisfies the invariant, and so does the
store after the admin makes `U1` a manager. -/
theorem roles_stay_in_enum_witness :
    rolesInEnum sampleDb = true ∧
    rolesInEnum (updateUserRole 7 sampleDb (sampleUser "A" "admin" true) "U1"
      (some "manager")).2 = true ∧
    rolesInEnum (updateProfile asciiLowerCase 7 sampleDb (sampleUser "U1" "user" true)
      bodyWithRole).2 = true :=
  have h := roles_stay_in_enum asciiLowerCase sampleVerifier 7 sampleDb (some "Bearer tokZ")
    (sampleUser "A" "admin" true) "U1" (some "manager") bodyWithRole (by decide)
  have h2 := roles_stay_in_enum asciiLowerCase sampleVerifier 7 sampleDb (some "Bearer tokZ")
    (sampleUser "U1" "user" true) "U1" (some "manager") bodyWithRole (by decide)
  ⟨by decide, h.2.2.1, h2.2.1⟩

/-! The profile -/

/-- C23: `updateProfile` answers 400 and writes nothing when the body has
neither the key `displayName` nor the key `profile`.  In every case the tasks
are untouched, every other identity finds the record it found before, and the
store is either unchanged or differs in the requester's record alone, whose
`firebaseUid`, `email`, `role`, `isActive`, `lastLogin` and `createdAt` are as
before, whose `updatedAt` is the time of the update, and whose display name
(profile) is as before when the body has no key `displayName` (`profile`). -/
theorem updateProfile_frame (toLowerCase : String → String) (now : Nat) (db : Db) (user : User)
    (body : List (String × BodyValue)) :
    ((∀ kv ∈ body, kv.1 ≠ "displayName" ∧ kv.1 ≠ "profile") →
      updateProfile toLowerCase now db user body = (.msg 400 "No valid updates provided", db)) ∧
    ((updateProfile toLowerCase now db user body).2 = db ∨
      ∃ u u1, db.users.find? (fun v => v.firebaseUid == user.firebaseUid) = some u ∧
        (updateProfile toLowerCase now db user body).2 =
          { db with
            users := db.users.map (fun v =>
              if v.firebaseUid == user.firebaseUid then u1 else v) } ∧
        u1.firebaseUid = u.firebaseUid ∧ u1.email = u.email ∧ u1.role = u.role ∧
        u1.isActive = u.isActive ∧ u1.lastLogin = u.lastLogin ∧
        u1.createdAt = u.createdAt ∧ u1.updatedAt = now ∧
        ((∀ kv ∈ body, kv.1 ≠ "displayName") → u1.displayName = u.displayName) ∧
        ((∀ kv ∈ body, kv.1 ≠ "profile") → u1.profile = u.profile)) ∧
    (updateProfile toLowerCase now db user body).2.tasks = db.tasks ∧
    (∀ uid2, uid2 ≠ user.firebaseUid →
      (updateProfile toLowerCase now db user body).2.users.find? (fun v => v.firebaseUid == uid2)
        = db.users.find? (fun v => v.firebaseUid == uid2)) := by
  have hstore := updateProfile_store toLowerCase now db user body
  have hallowed : ∀ kv ∈ body.filter (fun kv => allowedUpdates.contains kv.1),
      allowedUpdates.contains kv.1 = true := fun kv hkv => (List.mem_filter.mp hkv).2
  refine ⟨?_, ?_, ?_, ?_⟩
  · intro hnone
    have hempty : body.filter (fun kv => allowedUpdates.contains kv.1) = [] := by
      rw [List.filter_eq_nil_iff]
      intro kv hkv hc
      rcases allowed_key hc with hk | hk
      · exact (hnone kv hkv).1 hk
      · exact (hnone kv hkv).2 hk
    unfold updateProfile
    simp only [hempty, List.length_nil, beq_self_eq_true, if_true]
  · rcases hstore with hdb | ⟨u, hfind, hdb⟩
    · exact Or.inl hdb
    · have hkeep := foldl_setUpdate_allowed toLowerCase _ u hallowed
      have hother := foldl_setUpdate_other toLowerCase
        (body.filter (fun kv => allowedUpdates.contains kv.1)) u
      refine Or.inr ⟨u, _, hfind, hdb, hkeep.1, hkeep.2.1, hkeep.2.2.1, hkeep.2.2.2.1,
        hkeep.2.2.2.2.1, hkeep.2.2.2.2.2, rfl, ?_, ?_⟩
      · intro hno
        exact hother.1 (fun kv hkv => hno kv (List.mem_filter.mp hkv).1)
      · intro hno
        exact hother.2 (fun kv hkv => hno kv (List.mem_filter.mp hkv).1)
  · rcases hstore with hdb | ⟨u, hfind, hdb⟩
    · rw [hdb]
    · rw [hdb]
  · intro uid2 hne
    rcases hstore with hdb | ⟨u, hfind, hdb⟩
    · rw [hdb]
    · rw [hdb]
      have hu : u.firebaseUid = user.firebaseUid := by
        have := List.find?_some hfind
        simpa using this
      have h1 := (foldl_setUpdate_allowed toLowerCase _ u hallowed).1.trans hu
      show (db.users.map _).find? _ = _
      rw [find?_map_replace db.users user.firebaseUid
        { (body.filter (fun kv => allowedUpdates.contains kv.1)).foldl
            (setUpdate toLowerCase) u with updatedAt := now } h1 uid2]
      simp [hne]

/-- Witness of C23: `U1` sends a display name together with a role and an
email at time 7; the admin's record is found as before, and a body with the
role alone is refused. -/
theorem updateProfile_frame_witness :
    (updateProfile asciiLowerCase 7 sampleDb (sampleUser "U1" "user" true)
        bodyWithRole).2.users.find? (fun v => v.firebaseUid == "A")
      = sampleDb.users.find? (fun v => v.firebaseUid == "A") ∧
    (updateProfile asciiLowerCase 7 sampleDb (sampleUser "U1" "user" true)
        bodyWithRole).2.users.find? (fun v => v.firebaseUid == "U1")
      = some { sampleUser "U1" "user" true with displayName := "Una", updatedAt := 7 } ∧
    updateProfile asciiLowerCase 7 sampleDb (sampleUser "U1" "user" true) [("role", .text "admin")]
      = (.msg 400 "No valid updates provided", sampleDb) :=
  ⟨(updateProfile_frame asciiLowerCase 7 sampleDb (sampleUser "U1" "user" true)
      bodyWithRole).2.2.2 "A" (by decide),
   by decide,
   (updateProfile_frame asciiLowerCase 7 sampleDb (sampleUser "U1" "user" true)
      [("role", .text "admin")]).1 (by decide)⟩

/-! Deleting a user -/

/-- After the records of an identity are removed, no record of it is found. -/
theorem find?_filter_ne_user (users : List User) (uid : String) :
    (users.filter (fun v => v.firebaseUid != uid)).find? (fun u => u.firebaseUid == uid)
      = none := by
  rw [List.find?_eq_none]
  intro v hv
  have h := (List.mem_filter.mp hv).2
  simpa using h

/-- What `deleteUser` answers for a target other than the requester that has a
record, on a store that accepts the write. -/
theorem deleteUser_ok (db : Db) (admin : User) (userId : String) (target : User)
    (hne : userId ≠ admin.firebaseUid) (hwrite : db.writeFails = false)
    (hfind : db.users.find? (fun u => u.firebaseUid == userId) = some target) :
    deleteUser db admin userId =
      (.msg 200 "User deleted successfully",
       { db with users := db.users.filter (fun v => v.firebaseUid != userId) }) := by
  have hself : (userId == admin.firebaseUid) = false := by simpa using hne
  simp only [deleteUser, hself, User.findOneAndDelete, hwrite, hfind, Bool.false_eq_true,
    if_false]

/-- C24 (counterexample): the deactivated manager `Z` is refused by the guard;
the admin deletes `Z`; the next request with the token of `Z` finds no record,
is provisioned anew, and `next` is called with a bound user `Z` of role `user`
that is active. -/
theorem deleted_user_is_bound_again :
    (authenticateUser asciiLowerCase sampleVerifier 7 sampleDb (some "Bearer tokZ")).nextCalled
      = false ∧
    (deleteUser sampleDb (sampleUser "A" "admin" true) "Z").1
      = .msg 200 "User deleted successfully" ∧
    User.findOne (deleteUser sampleDb (sampleUser "A" "admin" true) "Z").2 "Z" = .ok none ∧
    (authenticateUser asciiLowerCase sampleVerifier 9
      (deleteUser sampleDb (sampleUser "A" "admin" true) "Z").2
      (some "Bearer tokZ")).nextCalled = true ∧
    ((authenticateUser asciiLowerCase sampleVerifier 9
        (deleteUser sampleDb (sampleUser "A" "admin" true) "Z").2
        (some "Bearer tokZ")).reqUser.map (fun u => (u.firebaseUid, u.role, u.isActive)))
      = some ("Z", "user", true) := by
  refine ⟨by decide, by decide, rfl, by decide, by decide⟩

/-- C24 (amended): after `deleteUser` removed the record of an identity, a
request whose token verifies for that identity finds no record and is treated
as a first sign-in: `next` is called exactly when a fresh document can be made
from the claims and inserted, and every user bound then is a new record of
that identity with role `user` and active, whatever the deleted record was. -/
theorem deleteUser_then_authenticate (toLowerCase : String → String)
    (verifyIdToken : String → Except String DecodedToken)
    (now : Nat) (db : Db) (admin : User) (userId token : String)
    (decodedToken : DecodedToken) (target : User)
    (hne : userId ≠ admin.firebaseUid) (hwrite : db.writeFails = false)
    (hread : db.readFails = false)
    (hfind : db.users.find? (fun u => u.firebaseUid == userId) = some target)
    (hverify : verifyIdToken token = .ok decodedToken) (huid : decodedToken.uid = userId) :
    (deleteUser db admin userId).1 = .msg 200 "User deleted successfully" ∧
    User.findOne (deleteUser db admin userId).2 userId = .ok none ∧
    ((authenticateUser toLowerCase verifyIdToken now (deleteUser db admin userId).2
        (some ("Bearer " ++ token))).nextCalled = true ↔
      ∃ user db2, newUser toLowerCase decodedToken now = .ok user ∧
        User.insert (deleteUser db admin userId).2 user = .ok db2) ∧
    (∀ bound, (authenticateUser toLowerCase verifyIdToken now (deleteUser db admin userId).2
        (some ("Bearer " ++ token))).reqUser = some bound →
      bound.firebaseUid = userId ∧ bound.role = "user" ∧ bound.isActive = true ∧
      bound.lastLogin = now) := by
  rw [deleteUser_ok db admin userId target hne hwrite hfind]
  have hnone : User.findOne
      { db with users := db.users.filter (fun v => v.firebaseUid != userId) } userId
      = .ok none := by
    simp only [User.findOne, hread, Bool.false_eq_true, if_false, find?_filter_ne_user]
  have hnone2 : User.findOne
      { db with users := db.users.filter (fun v => v.firebaseUid != userId) }
      decodedToken.uid = .ok none := by
    rw [huid]
    exact hnone
  refine ⟨rfl, hnone, ?_, ?_⟩
  · rw [authenticateUser_unseen toLowerCase verifyIdToken now _ token decodedToken hverify hnone2]
    cases hnew : newUser toLowerCase decodedToken now with
    | error e => simp [authThrown]
    | ok user =>
      dsimp only
      cases hins : User.insert
          { db with users := db.users.filter (fun v => v.firebaseUid != userId) } user with
      | error e => simp [authThrown, hins]
      | ok db2 =>
        have hact := (newUser_fields hnew).2.2.1
        simp [authFinish, hact, hins]
  · intro bound hbound
    rw [authenticateUser_unseen toLowerCase verifyIdToken now _ token decodedToken hverify
      hnone2] at hbound
    cases hnew : newUser toLowerCase decodedToken now with
    | error e =>
      rw [hnew] at hbound
      simp [authThrown] at hbound
    | ok user =>
      rw [hnew] at hbound
      dsimp only at hbound
      obtain ⟨hu, hrole, hact, hlast, -, -⟩ := newUser_fields hnew
      cases hins : User.insert
          { db with users := db.users.filter (fun v => v.firebaseUid != userId) } user with
      | error e =>
        rw [hins] at hbound
        simp [authThrown] at hbound
      | ok db2 =>
        rw [hins] at hbound
        simp only [authFinish, hact, Bool.not_true, Bool.false_eq_true, if_false] at hbound
        injection hbound with hbound
        rw [← hbound]
        exact ⟨hu.trans huid, hrole, hact, hlast⟩

/-- Witness of C24: the deleted manager `Z` signs in again and is bound as a
user. -/
theorem deleteUser_then_authenticate_witness :
    sampleDb.users.find? (fun u => u.firebaseUid == "Z") = some (sampleUser "Z" "manager" false) ∧
    User.findOne (deleteUser sampleDb (sampleUser "A" "admin" true) "Z").2 "Z" = .ok none ∧
    (authenticateUser asciiLowerCase sampleVerifier 9
      (deleteUser sampleDb (sampleUser "A" "admin" true) "Z").2
      (some ("Bearer " ++ "tokZ"))).nextCalled = true :=
  have h := deleteUser_then_authenticate asciiLowerCase sampleVerifier 9 sampleDb
    (sampleUser "A" "admin" true) "Z" "tokZ" { uid := "Z", email := some "Z@example.org", name := none }
    (sampleUser "Z" "manager" false) (by decide) rfl rfl rfl rfl rfl
  ⟨rfl, h.2.1, by decide⟩

/-- C27: for a target other than the requester that has a record, on a store
that accepts the write, `deleteUser` answers 200, removes the records of the
target and nothing else, and leaves the tasks as they were: every task, those
the target created or is assigned to among them, is still found with the same
fields. -/
theorem deleteUser_keeps_tasks (db : Db) (admin : User) (userId : String) (target : User)
    (hne : userId ≠ admin.firebaseUid) (hwrite : db.writeFails = false)
    (hfind : db.users.find? (fun u => u.firebaseUid == userId) = some target) :
    (deleteUser db admin userId).1 = .msg 200 "User deleted successfully" ∧
    (deleteUser db admin userId).2.users = db.users.filter (fun v => v.firebaseUid != userId) ∧
    (deleteUser db admin userId).2.users.find? (fun u => u.firebaseUid == userId) = none ∧
    (deleteUser db admin userId).2.tasks = db.tasks ∧
    (∀ id, Task.findById (deleteUser db admin userId).2 id = Task.findById db id) ∧
    (∀ t ∈ db.tasks, t.createdBy = userId ∨ t.assignedTo = userId →
      t ∈ (deleteUser db admin userId).2.tasks) := by
  rw [deleteUser_ok db admin userId target hne hwrite hfind]
  exact ⟨rfl, rfl, find?_filter_ne_user db.users userId, rfl, fun _ => rfl, fun t ht _ => ht⟩

/-- Witness of C27: the admin deletes `U1`; the task of `U1` is still there. -/
theorem deleteUser_keeps_tasks_witness :
    sampleDb.users.find? (fun u => u.firebaseUid == "U1") = some (sampleUser "U1" "user" true) ∧
    (deleteUser sampleDb (sampleUser "A" "admin" true) "U1").2.users.find?
      (fun u => u.firebaseUid == "U1") = none ∧
    taskOfU1 ∈ (deleteUser sampleDb (sampleUser "A" "admin" true) "U1").2.tasks :=
  have h := deleteUser_keeps_tasks sampleDb (sampleUser "A" "admin" true) "U1"
    (sampleUser "U1" "user" true) (by decide) rfl rfl
  ⟨rfl, h.2.2.1, h.2.2.2.2.2 taskOfU1 (by decide) (Or.inl rfl)⟩

/-! Creating a task -/

/-- A successful insert of a new task appended it. -/
theorem task_insert_ok {db db1 : Db} {t : Task} (h : Task.insert db t = .ok db1) :
    db1 = { db with tasks := db.tasks ++ [t] } := by
  unfold Task.insert at h
  split_ifs at h
  injection h with h
  exact h.symm

/-- An accepted `createTask` stored the document made from the body, and got
there past the check of the assignee. -/
theorem createTask_accepted (newId : String) (db : Db) (user : User) (body : TaskBody)
    (h : (createTask newId db user body).1.status = 201) :
    createTask newId db user body =
      ({ status := 201, message := some "Task created successfully",
         task := some (newTask newId user body), user := none, error := none },
       { db with tasks := db.tasks ++ [newTask newId user body] }) ∧
    (∀ a, body.assignedTo = some a → a ≠ "" → a ≠ user.firebaseUid →
      ∃ u, User.findOne db a = .ok (some u)) := by
  unfold createTask at h ⊢
  split_ifs at h ⊢
  · simp [Response.msg] at h
  · dsimp only at h ⊢
    split at h
    · simp [Response.internal] at h
    · simp [Response.msg] at h
    · rename_i hmissing
      split at h
      · simp [Response.internal] at h
      · rename_i db1 hins
        refine ⟨by rw [task_insert_ok hins], ?_⟩
        intro a ha hne hself
        rw [ha] at hmissing
        have hcond : (a != "" && a != user.firebaseUid) = true := by simp [hne, hself]
        simp only [hcond, if_true] at hmissing
        cases hfind : User.findOne db a with
        | error e =>
          rw [hfind] at hmissing
          cases hmissing
        | ok found =>
          rw [hfind] at hmissing
          cases found with
          | none =>
            simp [Except.map] at hmissing
          | some u => exact ⟨u, rfl⟩

/-- C25: when `createTask` accepts a request (answers 201), it appended exactly
one task, the one it returns, whose creator is the requester, whose assignee
is the body's `assignedTo` when that is given (a non-empty string) and the
requester otherwise, whose status is the body's or `pending`, whose priority
is the body's or `medium`, and whose tags are the body's or none. -/
theorem createTask_stored (newId : String) (db : Db) (user : User) (body : TaskBody)
    (h : (createTask newId db user body).1.status = 201) :
    ∃ task : Task,
      (createTask newId db user body).2.tasks = db.tasks ++ [task] ∧
      (createTask newId db user body).1.task = some task ∧
      task.createdBy = user.firebaseUid ∧
      task.assignedTo = (if truthy body.assignedTo then body.assignedTo.getD ""
                         else user.firebaseUid) ∧
      task.status = (if truthy body.status then body.status.getD "" else "pending") ∧
      task.priority = (if truthy body.priority then body.priority.getD "" else "medium") ∧
      task.tags = body.tags.getD [] ∧
      task.isArchived = false := by
  have hacc := (createTask_accepted newId db user body h).1
  refine ⟨newTask newId user body, ?_, ?_, rfl, rfl, rfl, rfl, rfl, rfl⟩
  · rw [hacc]
  · rw [hacc]

/-- Witness of C25: `U1` creates a task from a title and a description. -/
theorem createTask_stored_witness :
    (createTask "t9" sampleDb (sampleUser "U1" "user" true) plainTaskBody).1.status = 201 ∧
    ∃ task : Task,
      (createTask "t9" sampleDb (sampleUser "U1" "user" true) plainTaskBody).2.tasks
        = sampleDb.tasks ++ [task] ∧
      task.createdBy = "U1" ∧ task.assignedTo = "U1" ∧ task.status = "pending" ∧
      task.priority = "medium" ∧ task.tags = [] :=
  have h := createTask_stored "t9" sampleDb (sampleUser "U1" "user" true) plainTaskBody
    (by decide)
  ⟨by decide, h.choose, h.choose_spec.1, h.choose_spec.2.2.1,
    h.choose_spec.2.2.2.1.trans (by decide), h.choose_spec.2.2.2.2.1.trans (by decide),
    h.choose_spec.2.2.2.2.2.1.trans (by decide), h.choose_spec.2.2.2.2.2.2.1.trans (by decide)⟩

/-- C26: `createTask` answers 400 and returns the store unchanged when the
body's title or description is missing or empty, and when the body names an
assignee (a non-empty string) that is not the requester and matches no user
record; and the assignee of every task it stores is the requester or the
identity of a user record. -/
theorem createTask_rejects (newId : String) (db : Db) (user : User) (body : TaskBody) :
    (truthy body.title = false ∨ truthy body.description = false →
      createTask newId db user body = (.msg 400 "Title and description are required", db)) ∧
    (∀ a, truthy body.title = true → truthy body.description = true →
      body.assignedTo = some a → a ≠ "" → a ≠ user.firebaseUid →
      User.findOne db a = .ok none →
      createTask newId db user body = (.msg 400 "Assigned user not found", db)) ∧
    (∀ task, (createTask newId db user body).1.status = 201 →
      (createTask newId db user body).1.task = some task →
      task.assignedTo = user.firebaseUid ∨
        ∃ u ∈ db.users, u.firebaseUid = task.assignedTo) := by
  refine ⟨?_, ?_, ?_⟩
  · intro h
    have hc : (!truthy body.title || !truthy body.description) = true := by
      rcases h with h | h <;> simp [h]
    simp only [createTask, hc, if_true]
  · intro a ht hd ha hne hself hnone
    have hc : (a != "" && a != user.firebaseUid) = true := by simp [hne, hself]
    simp [createTask, ht, hd, ha, hc, hnone, Except.map]
  · intro task h201 htask
    obtain ⟨hacc, hexists⟩ := createTask_accepted newId db user body h201
    rw [hacc] at htask
    injection htask with htask
    rw [← htask]
    cases ha : body.assignedTo with
    | none => exact Or.inl (by simp [newTask, ha, truthy])
    | some a =>
      by_cases hne : a = ""
      · exact Or.inl (by simp [newTask, ha, truthy, hne])
      · by_cases hself : a = user.firebaseUid
        · exact Or.inl (by simp [newTask, ha, truthy, hne, hself])
        · obtain ⟨u, hu⟩ := hexists a ha hne hself
          right
          unfold User.findOne at hu
          split_ifs at hu
          injection hu with hu
          refine ⟨u, List.mem_of_find?_eq_some hu, ?_⟩
          have huid : u.firebaseUid = a := by
            have := List.find?_some hu
            simpa using this
          simp [newTask, ha, truthy, hne, huid]

/-- Witness of C26: a task for the unknown assignee `ghost` is refused, and so
is a body without a title. -/
theorem createTask_rejects_witness :
    createTask "t9" sampleDb (sampleUser "U1" "user" true)
        { plainTaskBody with assignedTo := some "ghost" }
      = (.msg 400 "Assigned user not found", sampleDb) ∧
    createTask "t9" sampleDb (sampleUser "U1" "user" true) { plainTaskBody with title := none }
      = (.msg 400 "Title and description are required", sampleDb) :=
  ⟨(createTask_rejects "t9" sampleDb (sampleUser "U1" "user" true)
      { plainTaskBody with assignedTo := some "ghost" }).2.1 "ghost" (by decide) (by decide)
      rfl (by decide) (by decide) rfl,
   (createTask_rejects "t9" sampleDb (sampleUser "U1" "user" true)
      { plainTaskBody with title := none }).1 (Or.inl (by decide))⟩

/-! The three task decisions -/

/-- The answer of `getTaskById` for a task the store holds is decided by
`hasAccess`. -/
theorem getTaskById_hasAccess (db : Db) (user : User) (id : String) (task : Task)
    (hfind : Task.findById db id = .ok (some task)) :
    getTaskById db user id =
      if hasAccess user task then
        { status := 200, message := none, task := some task, user := none, error := none }
      else .msg 403 "Access denied. You can only view your own tasks." := by
  simp only [getTaskById, hfind, hasAccess]
  split_ifs <;> simp_all

/-- C28: whenever the check of `deleteTask` permits, the check of `updateTask`
permits, and whenever that permits, the check of `getTaskById` permits, which
is what decides between the task and the 403 there.  Neither converse holds:
the manager `M` may update and not delete the task of `U1`, and the assignee
`U2` of role `user` may read and not update the task `U1` created. -/
theorem decisions_nested (user : User) (task : Task) :
    (canDelete user task = true → canUpdate user task = true) ∧
    (canUpdate user task = true → hasAccess user task = true) ∧
    (∀ db id, Task.findById db id = .ok (some task) →
      ((getTaskById db user id).status = 200 ↔ hasAccess user task = true) ∧
      ((getTaskById db user id).status = 403 ↔ hasAccess user task = false)) ∧
    (canUpdate (sampleUser "M" "manager" true) taskOfU1 = true ∧
      canDelete (sampleUser "M" "manager" true) taskOfU1 = false) ∧
    (hasAccess (sampleUser "U2" "user" true) taskForU2 = true ∧
      canUpdate (sampleUser "U2" "user" true) taskForU2 = false) := by
  refine ⟨?_, ?_, ?_, by decide, by decide⟩
  · intro h
    simp only [canDelete, Bool.or_eq_true] at h
    simp only [canUpdate, Bool.or_eq_true]
    rcases h with h | h
    · exact Or.inl (Or.inl h)
    · exact Or.inr h
  · intro h
    simp only [canUpdate, Bool.or_eq_true] at h
    simp only [hasAccess, Bool.or_eq_true]
    rcases h with (h | h) | h
    · exact Or.inl (Or.inl (Or.inl h))
    · exact Or.inl (Or.inl (Or.inr h))
    · exact Or.inr h
  · intro db id hfind
    rw [getTaskById_hasAccess db user id task hfind]
    cases hasAccess user task <;> simp [Response.msg]

/-- Witness of C28: the creator `U1`, whom `deleteTask` permits, is permitted
by `updateTask` and by `getTaskById`. -/
theorem decisions_nested_witness :
    canDelete (sampleUser "U1" "user" true) taskOfU1 = true ∧
    canUpdate (sampleUser "U1" "user" true) taskOfU1 = true ∧
    hasAccess (sampleUser "U1" "user" true) taskOfU1 = true :=
  have h := decisions_nested (sampleUser "U1" "user" true) taskOfU1
  ⟨by decide, h.1 (by decide), h.2.1 (h.1 (by decide))⟩

/-! Pagination -/

/-- The page read holds fewer documents than remain after the skipped ones
exactly when a further page of `limit` documents does not exhaust them. -/
theorem skip_returned_lt (skip limit total : Int) (hlimit : 1 ≤ limit) :
    skip + min limit (max 0 (total - skip)) < total ↔ skip + limit < total := by
  rcases le_total limit (max 0 (total - skip)) with h1 | h1
  · rw [min_eq_left h1]
  · rw [min_eq_right h1]
    rcases le_total 0 (total - skip) with h2 | h2
    · rw [max_eq_right h2] at h1 ⊢
      constructor <;> intro h <;> omega
    · rw [max_eq_left h2] at h1 ⊢
      constructor <;> intro h <;> omega

/-- C29: for `page >= 1`, `limit >= 1`, `total >= 0` and a page that holds
`min(limit, max(0, total - (page-1)*limit))` documents, the pagination object
has `totalPages` the ceiling of `total/limit`, `hasPrev` exactly when
`page > 1` (so not on the first page only), and `hasNext` exactly when
`page < totalPages`. -/
theorem pagination_flags (page limit total : Int) (hpage : 1 ≤ page) (hlimit : 1 ≤ limit)
    (htotal : 0 ≤ total) :
    (pagination page limit total
        (min limit (max 0 (total - (page - 1) * limit)))).totalPages
      = Int.ceil ((total : ℚ) / (limit : ℚ)) ∧
    ((pagination page limit total
        (min limit (max 0 (total - (page - 1) * limit)))).hasPrev = true ↔ 1 < page) ∧
    ((pagination page limit total
        (min limit (max 0 (total - (page - 1) * limit)))).hasPrev = false ↔ page = 1) ∧
    ((pagination page limit total
        (min limit (max 0 (total - (page - 1) * limit)))).hasNext = true ↔
      page < (pagination page limit total
        (min limit (max 0 (total - (page - 1) * limit)))).totalPages) ∧
    (pagination page limit total
        (min limit (max 0 (total - (page - 1) * limit)))).currentPage = page ∧
    (0 ≤ (pagination page limit total
        (min limit (max 0 (total - (page - 1) * limit)))).totalPages) := by
  have hlimq : (0 : ℚ) < (limit : ℚ) := by exact_mod_cast (by omega : (0 : Int) < limit)
  refine ⟨rfl, ?_, ?_, ?_, rfl, ?_⟩
  · simp [pagination]
  · simp only [pagination, decide_eq_false_iff_not]
    constructor <;> intro h <;> omega
  · simp only [pagination, decide_eq_true_eq]
    rw [skip_returned_lt ((page - 1) * limit) limit total hlimit, Int.lt_ceil,
      lt_div_iff₀ hlimq]
    have hmul : (page - 1) * limit + limit = page * limit := by ring
    rw [hmul]
    exact_mod_cast Iff.rfl
  · simp only [pagination]
    apply Int.ceil_nonneg
    apply div_nonneg
    · exact_mod_cast htotal
    · exact le_of_lt hlimq

/-- Witness of C29: the second page of 25 documents, ten a page. -/
theorem pagination_flags_witness :
    ((pagination 2 10 25 (min 10 (max 0 (25 - (2 - 1) * 10)))).hasPrev = true ↔
      (1 : Int) < 2) ∧
    ((pagination 2 10 25 (min 10 (max 0 (25 - (2 - 1) * 10)))).hasNext = true ↔
      2 < (pagination 2 10 25 (min 10 (max 0 (25 - (2 - 1) * 10)))).totalPages) ∧
    (pagination 2 10 25 (min 10 (max 0 (25 - (2 - 1) * 10)))).hasNext = true :=
  have h := pagination_flags 2 10 25 (by decide) (by decide) (by decide)
  ⟨h.2.1, h.2.2.2.1, by decide⟩

/-! The front end -/

/-- C30: for a loaded profile whose role and identity are those of the bound
user, `canEditTask` of the task page is the `canUpdate` decision of
`updateTask`, and `canDeleteTask` is the `canDelete` decision of `deleteTask`,
for every task. -/
theorem frontend_agrees (userProfile user : User) (task : Task)
    (hrole : userProfile.role = user.role)
    (huid : userProfile.firebaseUid = user.firebaseUid) :
    canEditTask (some userProfile) task = canUpdate user task ∧
    canDeleteTask (some userProfile) task = canDelete user task := by
  constructor
  · simp only [canEditTask, isAdmin, hasRole, Option.map_some', canUpdate, hrole, huid]
    cases h1 : (user.role == "admin") <;> cases h2 : (user.role == "manager") <;>
      cases h3 : (task.createdBy == user.firebaseUid) <;> simp_all
  · simp only [canDeleteTask, isAdmin, hasRole, Option.map_some', canDelete, hrole, huid]
    cases h1 : (user.role == "admin") <;>
      cases h3 : (task.createdBy == user.firebaseUid) <;> simp_all

/-- Witness of C30: the manager's page offers to edit, and not to delete, the
task of `U1`. -/
theorem frontend_agrees_witness :
    canEditTask (some (sampleUser "M" "manager" true)) taskOfU1 = true ∧
    canDeleteTask (some (sampleUser "M" "manager" true)) taskOfU1 = false :=
  have h := frontend_agrees (sampleUser "M" "manager" true) (sampleUser "M" "manager" true)
    taskOfU1 rfl rfl
  ⟨h.1.trans (by decide), h.2.trans (by decide)⟩

end TaskManager
